import Mathlib

/-!
Verification of the BBR/DHM enrichment module (`src/bbr.rs`).

The Rust code is shallowly embedded: `f64` arithmetic is modelled over `ℚ`
(exact rational semantics); the one place where the truth of a claim hinges
on IEEE-754 double rounding — the resampling index computation — is
additionally modelled with an exact binary64 round-to-nearest-even model
(`f64RN`).  Machine integers (`i32`, `u32`, `usize`) are modelled as `ℤ`/`ℕ`;
all values occurring in the claims are far from overflow.
-/

-- ============================================================================
-- Numeric helpers shared by the embedding
-- ============================================================================

/-- Rust `f64::round`: round half away from zero (exact-rational model). -/
def roundAway (q : ℚ) : ℤ :=
  if 0 ≤ q then ⌊q + 1/2⌋ else ⌈q - 1/2⌉

/-- Rust `Ord::clamp` for integers.  The Rust version asserts `lo ≤ hi`;
all theorems below carry that as a hypothesis. -/
def clampZ (x lo hi : ℤ) : ℤ := max lo (min x hi)

/-- Minimum of a list of rationals, code-shaped: the Rust code folds `min`
starting from the `f64::MAX` sentinel; for the nonempty grids that reach the
fold (the code errors out earlier on empty grids) this equals the fold from
the first element, which is how we model it.  Empty input returns 0 (unused). -/
def listMinQ : List ℚ → ℚ
  | [] => 0
  | h :: t => t.foldl min h

/-- Maximum of a list of rationals (sentinel fold modelled from the head). -/
def listMaxQ : List ℚ → ℚ
  | [] => 0
  | h :: t => t.foldl max h

/-- Minimum of a list of integers (`all_x.iter().min().unwrap()` etc.). -/
def listMinZ : List ℤ → ℤ
  | [] => 0
  | h :: t => t.foldl min h

/-- Maximum of a list of integers. -/
def listMaxZ : List ℤ → ℤ
  | [] => 0
  | h :: t => t.foldl max h

-- ============================================================================
-- DHM vertical mapping (src/bbr.rs lines 899-960)
-- ============================================================================

/-- `MAX_Y` in `fetch_dhm_elevation`. -/
def MAX_Y : ℤ := 319

/-- `TERRAIN_HEIGHT_BUFFER` in `fetch_dhm_elevation`. -/
def TERRAIN_HEIGHT_BUFFER : ℤ := 15

/-- `available_y_range = (MAX_Y - TERRAIN_HEIGHT_BUFFER - ground_level) as f64`. -/
def availableYRange (groundLevel : ℤ) : ℚ :=
  ((MAX_Y - TERRAIN_HEIGHT_BUFFER - groundLevel : ℤ) : ℚ)

/-- The scaled range actually used (lines 903-910): the requested
`height_range * scale` if it fits in the available budget, otherwise
`height_range * (available_y_range / height_range)`. -/
def scaledRangeQ (heightRange scale avail : ℚ) : ℚ :=
  if heightRange * scale ≤ avail then heightRange * scale
  else heightRange * (avail / heightRange)

/-- Per-cell Minecraft Y mapping (lines 924-940): linear `[min,max] →
[ground, ground+scaledRange]`, rounded and clamped to
`[ground_level, MAX_Y - TERRAIN_HEIGHT_BUFFER]`. -/
def mcYQ (groundLevel : ℤ) (minH heightRange scaledRange : ℚ) (h : ℚ) : ℤ :=
  let relative : ℚ := if 0 < heightRange then (h - minH) / heightRange else 0
  let scaled : ℚ := relative * scaledRange
  clampZ (roundAway ((groundLevel : ℚ) + scaled)) groundLevel
    (MAX_Y - TERRAIN_HEIGHT_BUFFER)

/-- `sea_level_y` (lines 913-922): present only when `height_range > 0` and
`min_h < 0.5`; the same linear mapping applied to real-world elevation 0. -/
def seaLevelYQ (groundLevel : ℤ) (minH heightRange scaledRange : ℚ) : Option ℤ :=
  if 0 < heightRange ∧ minH < 1/2 then
    let seaRelative : ℚ := (0 - minH) / heightRange
    let seaScaled : ℚ := seaRelative * scaledRange
    some (clampZ (roundAway ((groundLevel : ℚ) + seaScaled)) groundLevel
      (MAX_Y - TERRAIN_HEIGHT_BUFFER))
  else none

/-- Minimum height of the smoothed grid (lines 884-891). -/
def dhmMinH (grid : List (List ℚ)) : ℚ := listMinQ grid.flatten

/-- Maximum height of the smoothed grid (lines 884-891). -/
def dhmMaxH (grid : List (List ℚ)) : ℚ := listMaxQ grid.flatten

/-- The vertical-mapping stage of `fetch_dhm_elevation` (lines 884-960),
taking the smoothed height grid as input and producing the Minecraft height
grid together with `sea_level_y`. -/
def dhmVerticalMap (grid : List (List ℚ)) (groundLevel : ℤ) (scale : ℚ) :
    List (List ℤ) × Option ℤ :=
  let minH := dhmMinH grid
  let maxH := dhmMaxH grid
  let heightRange := maxH - minH
  let avail := availableYRange groundLevel
  let sr := scaledRangeQ heightRange scale avail
  (grid.map (List.map (mcYQ groundLevel minH heightRange sr)),
   seaLevelYQ groundLevel minH heightRange sr)

-- ============================================================================
-- IEEE-754 binary64 rounding model (for the resampling index computation)
-- ============================================================================

/-- Fuel-based binary logarithm (structural recursion so that the kernel can
evaluate it inside `decide`). -/
def natLog2F : ℕ → ℕ → ℕ
  | 0, _ => 0
  | fuel + 1, n => if 2 ≤ n then natLog2F fuel (n / 2) + 1 else 0

/-- `⌊log₂ n⌋` for `n ≥ 1` (0 for `n = 0`). -/
def natLog2 (n : ℕ) : ℕ := natLog2F n n

/-- `n / d ≥ 2 ^ k` for naturals `n, d > 0` and an integer `k`, by exact
integer cross-multiplication. -/
def divGe2pow (n d : ℕ) (k : ℤ) : Bool :=
  if 0 ≤ k then d * 2 ^ k.toNat ≤ n else d ≤ n * 2 ^ (-k).toNat

/-- The binade exponent of the positive fraction `n / d`: the `e` with
`2 ^ e ≤ n / d < 2 ^ (e + 1)`. -/
def fracExp (n d : ℕ) : ℤ :=
  let e0 : ℤ := (natLog2 n : ℤ) - (natLog2 d : ℤ)
  if ¬ divGe2pow n d e0 then e0 - 1
  else if divGe2pow n d (e0 + 1) then e0 + 1
  else e0

/-- Round-half-even of the exact quotient `tn / td` (`td > 0`): the rounding
step shared by the two binary64 operations below. -/
def rhe (tn td : ℕ) : ℕ :=
  let fl := tn / td
  let r := tn % td
  if td < 2 * r then fl + 1
  else if 2 * r < td then fl
  else if fl % 2 = 0 then fl else fl + 1

/-- IEEE-754 binary64 round-to-nearest-even of the positive fraction
`n / d`, as an exact dyadic `(m, s)` with value `m * 2 ^ s` and
`2 ^ 52 ≤ m ≤ 2 ^ 53`.  Valid in the normal range, which covers every value
of the resampling index computation. -/
def rnFrac (n d : ℕ) : ℕ × ℤ :=
  let s : ℤ := fracExp n d - 52
  let (tn, td) : ℕ × ℕ :=
    if 0 ≤ s then (n, d * 2 ^ s.toNat) else (n * 2 ^ (-s).toNat, d)
  (rhe tn td, s)

/-- IEEE-754 binary64 round-to-nearest-even of the positive dyadic
`bigM * 2 ^ s` (exact model, normal range). -/
def rnDyadic (bigM : ℕ) (s : ℤ) : ℕ × ℤ :=
  let s2 : ℤ := ((natLog2 bigM : ℤ) + s) - 52
  let sh : ℤ := s - s2
  if 0 ≤ sh then (bigM * 2 ^ sh.toNat, s2)
  else (rhe bigM (2 ^ (-sh).toNat), s2)

/-- Value of a nonnegative dyadic truncated toward zero (`as usize`). -/
def dyadicTrunc (m : ℕ) (s : ℤ) : ℕ :=
  if 0 ≤ s then m * 2 ^ s.toNat else m / 2 ^ (-s).toNat

-- ============================================================================
-- DHM resampling (src/bbr.rs lines 851-873)
-- ============================================================================

/-- The source-pixel index of target index `gi` (lines 857-861):
`(gi as f64 / gridSize as f64 * tiffSize as f64) as usize`, then
`.min(tiffSize - 1)`.  The division and the multiplication are binary64
operations, i.e. exactly rounded to nearest-even (modelled by `rnFrac` /
`rnDyadic`); `as usize` truncates toward zero. -/
def srcIdx (gi gridSize tiffSize : ℕ) : ℕ :=
  if gi = 0 then min 0 (tiffSize - 1)
  else
    let q1 := rnFrac gi gridSize
    let q2 := rnDyadic (q1.1 * tiffSize) q1.2
    min (dyadicTrunc q2.1 q2.2) (tiffSize - 1)

/-- The nodata sentinel (`-9999.0`). -/
def dhmNodata : ℚ := -9999

/-- Resampling of the raw TIFF data to the Minecraft grid (lines 851-873):
nearest-neighbour by proportional index scaling, out-of-range reads give 0,
and values at or below the nodata sentinel are replaced by 0. -/
def resampleDhm (tiffWidth tiffHeight gridWidth gridHeight : ℕ)
    (raw : List ℚ) : List (List ℚ) :=
  (List.range gridHeight).map fun gz =>
    (List.range gridWidth).map fun gx =>
      let tx := srcIdx gx gridWidth tiffWidth
      let tz := srcIdx gz gridHeight tiffHeight
      let idx := tz * tiffWidth + tx
      let h := raw.getD idx 0
      if h ≤ dhmNodata then 0 else h

-- Sanity checks of the binary64 model against reference double evaluations.
example : srcIdx 1 3 3 = 1 := by decide
example : srcIdx 15 22 22 = 14 := by decide
example : srcIdx 0 1 1 = 0 := by decide
example : srcIdx 2 7 7 = 2 := by decide
example : srcIdx 5 7 7 = 5 := by decide
example : srcIdx 13 23 23 = 12 := by decide
example : srcIdx 15 26 26 = 14 := by decide
example : srcIdx 2047 2048 2048 = 2047 := by decide
example : srcIdx 100 144 144 = 100 := by decide
example : srcIdx 21 22 22 = 21 := by decide
example : srcIdx 15 22 44 = 29 := by decide
example : srcIdx 7 10 2048 = 1433 := by decide
example : srcIdx 1000 1500 2048 = 1365 := by decide

-- ============================================================================
-- BBR record parsing (src/bbr.rs lines 46-77, 323-344, 370-388)
-- ============================================================================

/-- `BbrBuilding` (lines 70-77): a building with its WGS84 centroid and the
four optional attributes. -/
structure BbrBuilding where
  lat : ℚ
  lon : ℚ
  antalEtager : Option ℤ
  ydervaegsMateriale : Option ℤ
  tagdaekning : Option ℤ
  anvendelse : Option ℤ
deriving DecidableEq

/-- `str::strip_prefix`, on character lists (strings are modelled at
character granularity so that the kernel can evaluate them). -/
def dropPreL : List Char → List Char → Option (List Char)
  | [], s => some s
  | _ :: _, [] => none
  | p :: ps, c :: cs => if c = p then dropPreL ps cs else none

/-- `str::trim` (whitespace from both ends). -/
def trimL (cs : List Char) : List Char :=
  ((cs.dropWhile Char.isWhitespace).reverse.dropWhile Char.isWhitespace).reverse

/-- `str::strip_suffix`, on character lists. -/
def dropSufL (p cs : List Char) : Option (List Char) :=
  (dropPreL p.reverse cs.reverse).map List.reverse

/-- `str::split_whitespace` (fuel-based structural recursion; fuel is the
length of the list, which bounds the number of fragments). -/
def splitWsF : ℕ → List Char → List (List Char)
  | 0, _ => []
  | fuel + 1, cs =>
    let rest := cs.dropWhile Char.isWhitespace
    match rest with
    | [] => []
    | _ :: _ =>
      rest.takeWhile (fun c => ¬ c.isWhitespace)
        :: splitWsF fuel (rest.dropWhile (fun c => ¬ c.isWhitespace))

/-- `str::split_whitespace`: the non-empty whitespace-separated fragments. -/
def splitWsL (cs : List Char) : List (List Char) := splitWsF cs.length cs

/-- Integer value of a digit string. -/
def digitsVal (ds : List Char) : ℤ :=
  ds.foldl (fun acc c => 10 * acc + (c.toNat - '0'.toNat : ℕ)) 0

/-- Rust `str::parse::<i32>()`: optional sign, one or more ASCII digits,
rejecting values outside the `i32` range. -/
def parseI32 (s : String) : Option ℤ :=
  let cs := s.toList
  let signDs : ℤ × List Char :=
    match cs with
    | '+' :: t => (1, t)
    | '-' :: t => (-1, t)
    | t => (1, t)
  if signDs.2 = [] ∨ ¬ signDs.2.all Char.isDigit then none
  else
    let v : ℤ := signDs.1 * digitsVal signDs.2
    if -(2 ^ 31) ≤ v ∧ v ≤ 2 ^ 31 - 1 then some v else none

/-- Rust `str::parse::<f64>()`, restricted to the plain-decimal forms
(`[+-]? digits [. digits]` with at least one digit) that WKT coordinates
use; the exponent/`inf`/`nan` forms of the full grammar never occur in
`POINT` output and are modelled as absent. -/
def parseDecimalL (cs : List Char) : Option ℚ :=
  let signDs : ℚ × List Char :=
    match cs with
    | '+' :: t => (1, t)
    | '-' :: t => (-1, t)
    | t => (1, t)
  let ip := signDs.2.takeWhile Char.isDigit
  let rest := signDs.2.dropWhile Char.isDigit
  match rest with
  | [] =>
    if ip = [] then none
    else some (signDs.1 * (digitsVal ip : ℚ))
  | '.' :: fp =>
    if fp.all Char.isDigit ∧ ¬ (ip = [] ∧ fp = []) then
      some (signDs.1 * ((digitsVal ip : ℚ) + (digitsVal fp : ℚ) / (10 : ℚ) ^ fp.length))
    else none
  | _ => none

/-- `parse_point_coordinate` (lines 370-388), parameterized by the
reverse projection `conv` standing for `utm32n_to_wgs84` (a pure total
`f64` function of transcendental series, taken as an abstract parameter;
every theorem below holds for all `conv`). -/
def parsePointCoordinate (conv : ℚ → ℚ → ℚ × ℚ) (coordStr : String) :
    Option (ℚ × ℚ) :=
  ((dropPreL "POINT".toList coordStr.toList).map trimL
      |>.bind (dropPreL ['('])
      |>.bind (dropSufL [')'])).bind fun inner =>
    match splitWsL (trimL inner) with
    | [e, n] =>
      (parseDecimalL e).bind fun easting =>
        (parseDecimalL n).bind fun northing =>
          some (conv easting northing)
    | _ => none

-- ============================================================================
-- GraphQL response model and pagination loop (src/bbr.rs lines 14-63, 281-366)
-- ============================================================================

/-- `GraphQlKoordinat`. -/
structure GqlKoordinat where
  wkt : Option String

/-- `GraphQlBygning`: the raw per-record response fields (numeric attributes
arrive as nullable strings, `byg054AntalEtager` as a nullable number). -/
structure GqlBygning where
  anvendelse : Option String
  ydervaegsMateriale : Option String
  tagdaekning : Option String
  antalEtager : Option ℤ
  koordinat : Option GqlKoordinat

/-- `PageInfo`. -/
structure GqlPageInfo where
  hasNextPage : Bool
  endCursor : Option String

/-- `GraphQlBygningResult`. -/
structure GqlBygningResult where
  nodes : List GqlBygning
  pageInfo : GqlPageInfo

/-- `GraphQlResponse`; `data` holds `GraphQlData` whose single field
`BBR_Bygning` is itself optional, hence the nested `Option`. -/
structure GqlResponse where
  data : Option (Option GqlBygningResult)
  errors : Option (List String)

/-- Per-record parsing inside the page loop (lines 323-344): a missing or
unparsable WKT point skips the record; numeric attribute strings degrade to
`none` on parse failure. -/
def parseBygning (conv : ℚ → ℚ → ℚ × ℚ) (b : GqlBygning) :
    Option BbrBuilding :=
  match b.koordinat with
  | none => none
  | some koord =>
    match koord.wkt.bind (parsePointCoordinate conv) with
    | none => none
    | some ll =>
      some { lat := ll.1, lon := ll.2,
             antalEtager := b.antalEtager,
             ydervaegsMateriale := b.ydervaegsMateriale.bind parseI32,
             tagdaekning := b.tagdaekning.bind parseI32,
             anvendelse := b.anvendelse.bind parseI32 }

/-- One HTTP exchange of the pagination loop: a transport error
(`send()?`), or a status plus body text plus the result of `resp.json()`. -/
inductive BbrReply
  | sendErr (msg : String)
  | httpReply (status : ℕ) (bodyText : String) (json : Except String GqlResponse)

/-- The pagination loop of `fetch_bbr_buildings` (lines 295-363), with the
server modelled as a function from (1-based page number, cursor) to a reply.
The Rust loop always performs at most 100 iterations (the safety cap), so
fuel 100 — consumed once per iteration — is exact; `outOfFuel` is
unreachable from `fetchBbrBuildings`.  The HTTP status display is modelled
as the numeric status text. -/
def fetchBbrLoop (conv : ℚ → ℚ → ℚ × ℚ)
    (server : ℕ → Option String → BbrReply) :
    ℕ → ℕ → Option String → List BbrBuilding →
    (List BbrBuilding × ℕ × Bool) ⊕ Option String
  | 0, _, _, _ => Sum.inr none
  | fuel + 1, page, cursor, acc =>
    let page' := page + 1
    match server page' cursor with
    | .sendErr m => Sum.inr (some m)
    | .httpReply status bodyText json =>
      if ¬ (200 ≤ status ∧ status < 300) then
        Sum.inr (some ("BBR GraphQL API returned status " ++ toString status
          ++ ": " ++ bodyText))
      else
        match json with
        | .error e => Sum.inr (some e)
        | .ok body =>
          match body.errors with
          | some errs =>
            Sum.inr (some ("BBR GraphQL errors: " ++ String.intercalate "; " errs))
          | none =>
            match body.data.bind id with
            | none => Sum.inr (some "BBR GraphQL returned no data")
            | some result =>
              let acc' := acc ++ result.nodes.filterMap (parseBygning conv)
              if ¬ result.pageInfo.hasNextPage then Sum.inl (acc', page', false)
              else
                match result.pageInfo.endCursor with
                | none => Sum.inl (acc', page', false)
                | some c =>
                  if 100 ≤ page' then Sum.inl (acc', page', true)
                  else fetchBbrLoop conv server fuel page' (some c) acc'

/-- `fetch_bbr_buildings` (lines 281-366): run the pagination loop from the
first page.  `Sum.inl (records, pages, warned)` is `Ok(all_buildings)` after
`pages` page fetches, with `warned` marking the safety-cap warning;
`Sum.inr (some msg)` is `Err(msg)`. -/
def fetchBbrBuildings (conv : ℚ → ℚ → ℚ × ℚ)
    (server : ℕ → Option String → BbrReply) :
    (List BbrBuilding × ℕ × Bool) ⊕ Option String :=
  fetchBbrLoop conv server 100 0 none []

/-- The `BBR_Bygning` payload of a reply, when present. -/
def replyResult : BbrReply → Option GqlBygningResult
  | .httpReply _ _ (.ok body) => body.data.bind id
  | _ => none

/-- The records contributed by `k` consecutive pages starting after `page`,
threading each page's `endCursor` into the next request — the reference
value for what the pagination loop accumulates. -/
def collectPages (conv : ℚ → ℚ → ℚ × ℚ)
    (server : ℕ → Option String → BbrReply) :
    ℕ → ℕ → Option String → List BbrBuilding
  | 0, _, _ => []
  | k + 1, page, cursor =>
    match replyResult (server (page + 1) cursor) with
    | none => []
    | some result =>
      result.nodes.filterMap (parseBygning conv)
        ++ collectPages conv server k (page + 1) result.pageInfo.endCursor

-- ============================================================================
-- Code translation tables (src/bbr.rs lines 396-521)
-- ============================================================================

/-- `bbr_wall_material_to_colour` (lines 396-411). -/
def bbrWallMaterialToColour (code : ℤ) : Option String :=
  if code = 1 then some "#b5451b"
  else if code = 2 then some "#c8c0b8"
  else if code = 3 then some "#b0b0b0"
  else if code = 4 then some "#c8a050"
  else if code = 5 then some "#a07040"
  else if code = 6 then some "#909090"
  else if code = 7 then some "#d8c8a0"
  else if code = 8 then some "#808890"
  else if code = 10 then some "#d0e8f0"
  else if code = 11 then some "#e8e0d0"
  else if code = 12 then some "#f0e8d0"
  else none

/-- `bbr_roof_to_tags` (lines 415-470); the `HashMap` of at most two
distinct keys is modelled as the insertion list. -/
def bbrRoofToTags (code : ℤ) : List (String × String) :=
  if code = 1 then [("roof:shape", "flat")]
  else if code = 2 then [("roof:shape", "flat")]
  else if code = 3 then [("roof:shape", "gabled")]
  else if code = 4 then [("roof:shape", "gabled"), ("roof:material", "tile")]
  else if code = 5 then [("roof:shape", "gabled"), ("roof:material", "tile")]
  else if code = 6 then [("roof:shape", "gabled"), ("roof:material", "metal")]
  else if code = 7 then [("roof:shape", "hipped"), ("roof:material", "thatch")]
  else if code = 10 then [("roof:material", "glass")]
  else if code = 11 then [("roof:shape", "flat")]
  else if code = 12 then [("roof:shape", "hipped"), ("roof:material", "slate")]
  else if code = 20 then [("roof:shape", "flat")]
  else []

/-- `bbr_anvendelse_to_building_type` (lines 473-521). -/
def bbrAnvendelseToBuildingType (code : ℤ) : Option String :=
  if code = 110 then some "house"
  else if code = 120 then some "house"
  else if code = 121 then some "semidetached_house"
  else if code = 130 then some "apartments"
  else if code = 131 ∨ code = 132 then some "apartments"
  else if code = 140 then some "apartments"
  else if code = 150 then some "residential"
  else if code = 160 then some "residential"
  else if 185 ≤ code ∧ code ≤ 190 then some "residential"
  else if 310 ≤ code ∧ code ≤ 319 then some "commercial"
  else if 320 ≤ code ∧ code ≤ 329 then some "office"
  else if 330 ≤ code ∧ code ≤ 339 then some "hotel"
  else if 340 ≤ code ∧ code ≤ 349 then some "commercial"
  else if 350 ≤ code ∧ code ≤ 359 then some "retail"
  else if 360 ≤ code ∧ code ≤ 369 then some "commercial"
  else if 370 ≤ code ∧ code ≤ 379 then some "commercial"
  else if 390 ≤ code ∧ code ≤ 399 then some "commercial"
  else if 410 ≤ code ∧ code ≤ 419 then some "industrial"
  else if 420 ≤ code ∧ code ≤ 429 then some "industrial"
  else if 430 ≤ code ∧ code ≤ 439 then some "warehouse"
  else if 440 ≤ code ∧ code ≤ 449 then some "industrial"
  else if 510 ≤ code ∧ code ≤ 519 then some "school"
  else if 520 ≤ code ∧ code ≤ 529 then some "university"
  else if 530 ≤ code ∧ code ≤ 539 then some "hospital"
  else if 540 ≤ code ∧ code ≤ 549 then some "public"
  else if 550 ≤ code ∧ code ≤ 559 then some "school"
  else if code = 585 then some "church"
  else if 590 ≤ code ∧ code ≤ 599 then some "public"
  else if 610 ≤ code ∧ code ≤ 619 then some "public"
  else if 620 ≤ code ∧ code ≤ 629 then some "public"
  else if 710 ≤ code ∧ code ≤ 719 then some "industrial"
  else if 720 ≤ code ∧ code ≤ 729 then some "industrial"
  else if 910 ≤ code ∧ code ≤ 919 then some "farm"
  else if 920 ≤ code ∧ code ≤ 929 then some "farm_auxiliary"
  else if code = 930 then some "shed"
  else if code = 940 then some "garage"
  else if code = 950 then some "shed"
  else none

-- ============================================================================
-- Spatial reconciler (src/bbr.rs lines 528-678)
-- ============================================================================

/-- A node of a processed OSM way: Minecraft planar coordinates (`i32`). -/
structure OsmNode where
  x : ℤ
  z : ℤ
deriving DecidableEq

/-- A processed OSM way: mutable tag mapping plus vertex list.  The tag
`HashMap<String, String>` is modelled as an insertion list where
`tagInsert` replaces an existing key. -/
structure OsmWay where
  tags : List (String × String)
  nodes : List OsmNode
deriving DecidableEq

/-- `ProcessedElement`: the reconciler touches only the `Way` variant; all
other variants are opaque. -/
inductive PElem
  | way (w : OsmWay)
  | other (id : ℕ)
deriving DecidableEq

/-- `HashMap::contains_key`. -/
def tagHasKey (tags : List (String × String)) (k : String) : Bool :=
  tags.any (fun p => p.1 = k)

/-- `HashMap::insert` (replacing any previous binding of the key). -/
def tagInsert (tags : List (String × String)) (k v : String) :
    List (String × String) :=
  (k, v) :: tags.filter (fun p => ¬ p.1 = k)

/-- A way bearing a `building` or `building:part` tag (lines 552, 587). -/
def isBuildingWay (w : OsmWay) : Bool :=
  tagHasKey w.tags "building" || tagHasKey w.tags "building:part"

/-- `all_x` (lines 548-559): the x coordinates of all nodes of all
building ways. -/
def buildingXs (elements : List PElem) : List ℤ :=
  elements.flatMap fun e =>
    match e with
    | .way w => if isBuildingWay w then w.nodes.map OsmNode.x else []
    | .other _ => []

/-- `all_z` (lines 548-559). -/
def buildingZs (elements : List PElem) : List ℤ :=
  elements.flatMap fun e =>
    match e with
    | .way w => if isBuildingWay w then w.nodes.map OsmNode.z else []
    | .other _ => []

/-- The precomputed global extent and geodetic bbox (lines 565-576). -/
structure EnrichCtx where
  gMinX : ℚ
  gMaxX : ℚ
  gMinZ : ℚ
  gMaxZ : ℚ
  latMin : ℚ
  latMax : ℚ
  lonMin : ℚ
  lonMax : ℚ

/-- Build the context from the element collection and the bbox corners. -/
def mkCtx (elements : List PElem) (latMin latMax lonMin lonMax : ℚ) :
    EnrichCtx :=
  { gMinX := (listMinZ (buildingXs elements) : ℚ)
    gMaxX := (listMaxZ (buildingXs elements) : ℚ)
    gMinZ := (listMinZ (buildingZs elements) : ℚ)
    gMaxZ := (listMaxZ (buildingZs elements) : ℚ)
    latMin := latMin, latMax := latMax, lonMin := lonMin, lonMax := lonMax }

/-- `x_range = (global_max_x - global_min_x).max(1.0)` (line 570). -/
def ctxXRange (c : EnrichCtx) : ℚ := max (c.gMaxX - c.gMinX) 1

/-- `z_range` (line 571). -/
def ctxZRange (c : EnrichCtx) : ℚ := max (c.gMaxZ - c.gMinZ) 1

/-- The approximate geodetic centroid of a way (lines 596-609): bbox-center
of its nodes, normalized against the global extent, mapped onto the
geodetic bbox with the latitude axis inverted.  Returns `(lat, lon)`. -/
def approxCentroid (c : EnrichCtx) (w : OsmWay) : ℚ × ℚ :=
  let minX : ℚ := (listMinZ (w.nodes.map OsmNode.x) : ℚ)
  let maxX : ℚ := (listMaxZ (w.nodes.map OsmNode.x) : ℚ)
  let minZ : ℚ := (listMinZ (w.nodes.map OsmNode.z) : ℚ)
  let maxZ : ℚ := (listMaxZ (w.nodes.map OsmNode.z) : ℚ)
  let cx := (minX + maxX) / 2
  let cz := (minZ + maxZ) / 2
  let normX := (cx - c.gMinX) / ctxXRange c
  let normZ := (cz - c.gMinZ) / ctxZRange c
  (c.latMax - normZ * (c.latMax - c.latMin),
   c.lonMin + normX * (c.lonMax - c.lonMin))

/-- `threshold * threshold` with `threshold = 0.00027` (lines 613-614). -/
def bbrThresholdSq : ℚ := (27 / 100000) * (27 / 100000)

/-- Squared geodetic distance of a record to the approximate centroid
(lines 620-622). -/
def bbrDistSq (b : BbrBuilding) (lat lon : ℚ) : ℚ :=
  (b.lat - lat) * (b.lat - lat) + (b.lon - lon) * (b.lon - lon)

/-- One step of the nearest-record scan (lines 619-627). -/
def findBestStep (lat lon : ℚ) (best : Option (ℚ × BbrBuilding))
    (b : BbrBuilding) : Option (ℚ × BbrBuilding) :=
  let d := bbrDistSq b lat lon
  match best with
  | none => if d < bbrThresholdSq then some (d, b) else none
  | some (bd, bb) =>
    if d < bd ∧ d < bbrThresholdSq then some (d, b) else some (bd, bb)

/-- The nearest-record scan: the Rust fold starts from
`best_dist_sq = f64::MAX` with no record, and acceptance requires
`dist < threshold² < f64::MAX`, so folding from `none` is the same
computation. -/
def findBestBbr (records : List BbrBuilding) (lat lon : ℚ) :
    Option (ℚ × BbrBuilding) :=
  records.foldl (findBestStep lat lon) none

/-- The tag overrides applied to a matched way (lines 629-672). -/
def applyBbr (w : OsmWay) (b : BbrBuilding) : OsmWay :=
  let t1 :=
    match b.antalEtager with
    | some levels =>
      if 1 ≤ levels then tagInsert w.tags "building:levels" (toString levels)
      else w.tags
    | none => w.tags
  let t2 :=
    match b.ydervaegsMateriale with
    | some code =>
      match bbrWallMaterialToColour code with
      | some colour => tagInsert t1 "building:colour" colour
      | none => t1
    | none => t1
  let t3 :=
    match b.tagdaekning with
    | some code =>
      (bbrRoofToTags code).foldl (fun ts kv => tagInsert ts kv.1 kv.2) t2
    | none => t2
  let t4 :=
    match b.anvendelse with
    | some code =>
      match bbrAnvendelseToBuildingType code with
      | some btype => tagInsert t3 "building" btype
      | none => t3
    | none => t3
  { w with tags := t4 }

/-- Per-element enrichment (lines 581-673). -/
def enrichElem (c : EnrichCtx) (records : List BbrBuilding) : PElem → PElem
  | .other k => .other k
  | .way w =>
    if ¬ isBuildingWay w then .way w
    else if w.nodes = [] then .way w
    else
      let ll := approxCentroid c w
      match findBestBbr records ll.1 ll.2 with
      | some db => .way (applyBbr w db.2)
      | none => .way w

/-- The reconciliation pass of `enrich_with_bbr` (lines 537-673), taking the
already-fetched record list as input (the fetch itself is `fetchBbrBuildings`).
Early returns: no records, or no building way with nodes. -/
def enrichWithBbr (elements : List PElem) (records : List BbrBuilding)
    (latMin latMax lonMin lonMax : ℚ) : List PElem :=
  if records = [] then elements
  else if buildingXs elements = [] then elements
  else
    elements.map (enrichElem (mkCtx elements latMin latMax lonMin lonMax) records)

-- ============================================================================
-- DHM raster fetch retry logic (src/bbr.rs lines 730-807)
-- ============================================================================

/-- One HTTP exchange of the raster fetch: a transport failure from
`send()`, or a response with status, content type, body text (read by
`resp.text()` in the error branches) and the result of `resp.bytes()`. -/
inductive DhmReply
  | sendErr (msg : String)
  | resp (status : ℕ) (contentType : String) (body : String)
      (bytesRead : Except String String)

/-- `&body[..body.len().min(500)]` (modelled at character granularity). -/
def trunc500 (s : String) : String := (s.toList.take 500).asString

/-- The `DHM WCS returned status ...` message (the status display is
modelled as its numeric text). -/
def dhmStatusMsg (status : ℕ) (body : String) : String :=
  "DHM WCS returned status " ++ toString status ++ ": " ++ trunc500 body

/-- How one attempt's reply is handled (lines 760-800): retry on transport
failure, 5xx, 429, or a failed body read; immediate failure on any other
non-success status; success otherwise. -/
inductive AttemptRes
  | success (contentType bytes : String)
  | retry (msg : String)
  | fatal (msg : String)

/-- Classify one reply exactly as the attempt body does. -/
def attemptStep : DhmReply → AttemptRes
  | .sendErr m => .retry ("Request failed: " ++ m)
  | .resp status _ body (.error e) =>
    if (500 ≤ status ∧ status ≤ 599) ∨ status = 429 then
      .retry (dhmStatusMsg status body)
    else if ¬ (200 ≤ status ∧ status < 300) then .fatal (dhmStatusMsg status body)
    else .retry ("Failed to read response body: " ++ e)
  | .resp status ct body (.ok bytes) =>
    if (500 ≤ status ∧ status ≤ 599) ∨ status = 429 then
      .retry (dhmStatusMsg status body)
    else if ¬ (200 ≤ status ∧ status < 300) then .fatal (dhmStatusMsg status body)
    else .success ct bytes

/-- Observable schedule events: a sleep of a given number of seconds, or
the dispatch of one HTTP attempt. -/
inductive TraceEv
  | sleep (secs : ℕ)
  | att
deriving DecidableEq

/-- Result of the inner quick-attempt loop (lines 746-801). -/
inductive InnerRes
  | success (contentType bytes : String) (idx : ℕ) (trace : List TraceEv)
  | fatal (msg : String) (trace : List TraceEv)
  | exhausted (lastErr : String) (idx : ℕ) (trace : List TraceEv)

/-- The inner loop `for attempt in 1..=quick_retries` with its
`2^(attempt-1)` second backoff before every repeated attempt.  `s` maps the
global 0-based attempt index to its reply. -/
def dhmInnerLoop (s : ℕ → DhmReply) :
    ℕ → ℕ → ℕ → String → List TraceEv → InnerRes
  | 0, _, idx, lastErr, tr => .exhausted lastErr idx tr
  | n + 1, attempt, idx, _lastErr, tr =>
    let tr1 := (if 1 < attempt then tr ++ [.sleep (2 ^ (attempt - 1))] else tr)
      ++ [.att]
    match attemptStep (s idx) with
    | .success ct b => .success ct b (idx + 1) tr1
    | .fatal m => .fatal m tr1
    | .retry m => dhmInnerLoop s n (attempt + 1) (idx + 1) m tr1

/-- Result of the whole raster fetch: the `(content_type, bytes)` pair on
success, or the error message, together with the event trace. -/
inductive RunRes
  | ok (contentType bytes : String) (trace : List TraceEv)
  | err (msg : String) (trace : List TraceEv)

/-- The outer loop `for round in 1..=max_rounds` with its fixed 60 s wait
before every round but the first, and the final exhaustion error carrying
the last observed error message. -/
def dhmRoundLoop (s : ℕ → DhmReply) :
    ℕ → ℕ → ℕ → String → List TraceEv → RunRes
  | 0, _, _, lastErr, tr =>
    .err ("DHM WCS failed after 5 rounds of 3 attempts: " ++ lastErr) tr
  | n + 1, round, idx, lastErr, tr =>
    let tr0 := if 1 < round then tr ++ [.sleep 60] else tr
    match dhmInnerLoop s 3 1 idx lastErr tr0 with
    | .success ct b _ tr' => .ok ct b tr'
    | .fatal m tr' => .err m tr'
    | .exhausted le idx' tr' => dhmRoundLoop s n (round + 1) idx' le tr'

/-- The retry block of `fetch_dhm_elevation` (lines 733-807): 5 rounds of 3
quick attempts, starting with empty `last_err`. -/
def dhmFetchRaster (s : ℕ → DhmReply) : RunRes :=
  dhmRoundLoop s 5 1 0 "" []

/-- The schedule events preceding global attempt `i` (0-based): a 60 s wait
when it starts a new round other than the first, and a `2^(i % 3)` s backoff
when it repeats within a round. -/
def preSleeps (i : ℕ) : List TraceEv :=
  (if i % 3 = 0 ∧ i ≠ 0 then [.sleep 60] else [])
    ++ (if i % 3 ≠ 0 then [.sleep (2 ^ (i % 3))] else [])

/-- The canonical trace of a run of `m` attempts. -/
def canonicalTrace (m : ℕ) : List TraceEv :=
  (List.range m).flatMap fun i => preSleeps i ++ [.att]

/-- Whether a reply causes a retry. -/
def isRetryReply (o : DhmReply) : Bool :=
  match attemptStep o with
  | .retry _ => true
  | _ => false

/-- The retry message of a retryable reply. -/
def retryMsgOf (o : DhmReply) : String :=
  match attemptStep o with
  | .retry m => m
  | _ => ""

/-- Whether a reply fails the whole fetch immediately (non-success,
non-retryable status). -/
def isFatalReply (o : DhmReply) : Bool :=
  match attemptStep o with
  | .fatal _ => true
  | _ => false

/-- The error message of a fatal reply. -/
def fatalMsgOf (o : DhmReply) : String :=
  match attemptStep o with
  | .fatal m => m
  | _ => ""

/-- Whether a reply succeeds. -/
def isSuccessReply (o : DhmReply) : Bool :=
  match attemptStep o with
  | .success _ _ => true
  | _ => false

/-- Content type of a successful reply. -/
def successCtOf (o : DhmReply) : String :=
  match attemptStep o with
  | .success ct _ => ct
  | _ => ""

/-- Bytes of a successful reply. -/
def successBytesOf (o : DhmReply) : String :=
  match attemptStep o with
  | .success _ b => b
  | _ => ""

/-- A server behaviour in which this reply is a successful page that
reports `hasNextPage = true` and supplies a continuation cursor. -/
def alwaysNextReply (r : BbrReply) : Prop :=
  match r with
  | .httpReply status _ (.ok body) =>
    (200 ≤ status ∧ status < 300) ∧ body.errors = none ∧
    ∃ result, body.data.bind id = some result ∧
      result.pageInfo.hasNextPage = true ∧
      ∃ c, result.pageInfo.endCursor = some c
  | _ => False

-- ============================================================================
-- Helper lemmas
-- ============================================================================

theorem foldlMin_mem {α : Type} [LinearOrder α] (l : List α) (a : α) :
    l.foldl min a ∈ a :: l := by
  induction l generalizing a with
  | nil => simp
  | cons h t ih =>
    simp only [List.foldl_cons]
    rcases List.mem_cons.1 (ih (min a h)) with h1 | h1
    · rcases min_choice a h with hc | hc <;> rw [h1, hc] <;> simp
    · simp [h1]

theorem foldlMin_le_init {α : Type} [LinearOrder α] (l : List α) (a : α) :
    l.foldl min a ≤ a := by
  induction l generalizing a with
  | nil => simp
  | cons h t ih =>
    simpa using le_trans (ih (min a h)) (min_le_left a h)

theorem foldlMin_le_mem {α : Type} [LinearOrder α] (l : List α) (a : α) :
    ∀ x ∈ l, l.foldl min a ≤ x := by
  induction l generalizing a with
  | nil => simp
  | cons h t ih =>
    intro x hx
    rcases List.mem_cons.1 hx with rfl | hx
    · simpa using le_trans (foldlMin_le_init t (min a x)) (min_le_right a x)
    · simpa using ih (min a h) x hx

theorem foldlMax_mem {α : Type} [LinearOrder α] (l : List α) (a : α) :
    l.foldl max a ∈ a :: l := by
  induction l generalizing a with
  | nil => simp
  | cons h t ih =>
    simp only [List.foldl_cons]
    rcases List.mem_cons.1 (ih (max a h)) with h1 | h1
    · rcases max_choice a h with hc | hc <;> rw [h1, hc] <;> simp
    · simp [h1]

theorem foldlMax_init_le {α : Type} [LinearOrder α] (l : List α) (a : α) :
    a ≤ l.foldl max a := by
  induction l generalizing a with
  | nil => simp
  | cons h t ih =>
    simpa using le_trans (le_max_left a h) (ih (max a h))

theorem foldlMax_mem_le {α : Type} [LinearOrder α] (l : List α) (a : α) :
    ∀ x ∈ l, x ≤ l.foldl max a := by
  induction l generalizing a with
  | nil => simp
  | cons h t ih =>
    intro x hx
    rcases List.mem_cons.1 hx with rfl | hx
    · simpa using le_trans (le_max_right a x) (foldlMax_init_le t (max a x))
    · simpa using ih (max a h) x hx

theorem listMinQ_mem {l : List ℚ} (h : l ≠ []) : listMinQ l ∈ l := by
  cases l with
  | nil => exact absurd rfl h
  | cons a t => exact foldlMin_mem t a

theorem listMinQ_le {l : List ℚ} : ∀ x ∈ l, listMinQ l ≤ x := by
  cases l with
  | nil => simp
  | cons a t =>
    intro x hx
    rcases List.mem_cons.1 hx with rfl | hx
    · exact foldlMin_le_init t x
    · exact foldlMin_le_mem t a x hx

theorem listMaxQ_mem {l : List ℚ} (h : l ≠ []) : listMaxQ l ∈ l := by
  cases l with
  | nil => exact absurd rfl h
  | cons a t => exact foldlMax_mem t a

theorem le_listMaxQ {l : List ℚ} : ∀ x ∈ l, x ≤ listMaxQ l := by
  cases l with
  | nil => simp
  | cons a t =>
    intro x hx
    rcases List.mem_cons.1 hx with rfl | hx
    · exact foldlMax_init_le t x
    · exact foldlMax_mem_le t a x hx

theorem listMinZ_mem {l : List ℤ} (h : l ≠ []) : listMinZ l ∈ l := by
  cases l with
  | nil => exact absurd rfl h
  | cons a t => exact foldlMin_mem t a

theorem listMinZ_le {l : List ℤ} : ∀ x ∈ l, listMinZ l ≤ x := by
  cases l with
  | nil => simp
  | cons a t =>
    intro x hx
    rcases List.mem_cons.1 hx with rfl | hx
    · exact foldlMin_le_init t x
    · exact foldlMin_le_mem t a x hx

theorem listMaxZ_mem {l : List ℤ} (h : l ≠ []) : listMaxZ l ∈ l := by
  cases l with
  | nil => exact absurd rfl h
  | cons a t => exact foldlMax_mem t a

theorem le_listMaxZ {l : List ℤ} : ∀ x ∈ l, x ≤ listMaxZ l := by
  cases l with
  | nil => simp
  | cons a t =>
    intro x hx
    rcases List.mem_cons.1 hx with rfl | hx
    · exact foldlMax_init_le t x
    · exact foldlMax_mem_le t a x hx

theorem clampZ_bounds (x lo hi : ℤ) (h : lo ≤ hi) :
    lo ≤ clampZ x lo hi ∧ clampZ x lo hi ≤ hi := by
  unfold clampZ
  constructor
  · exact le_max_left lo (min x hi)
  · exact max_le h (min_le_right x hi)

theorem roundAway_intCast (n : ℤ) : roundAway (n : ℚ) = n := by
  unfold roundAway
  split
  · rw [show ((n : ℚ) + 1/2) = n + 1/2 by ring]
    rw [Int.floor_eq_iff]
    constructor
    · linarith
    · linarith
  · rw [show ((n : ℚ) - 1/2) = n + (-(1/2)) by ring]
    rw [Int.ceil_eq_iff]
    constructor
    · linarith
    · linarith

theorem mcYQ_bounds (g : ℤ) (m R sr h : ℚ)
    (hg : g ≤ MAX_Y - TERRAIN_HEIGHT_BUFFER) :
    g ≤ mcYQ g m R sr h ∧ mcYQ g m R sr h ≤ MAX_Y - TERRAIN_HEIGHT_BUFFER := by
  unfold mcYQ
  exact clampZ_bounds _ _ _ hg

theorem dhm_flatten_ne (grid : List (List ℚ)) (h1 : grid ≠ [])
    (h2 : ∀ row ∈ grid, row ≠ []) : grid.flatten ≠ [] := by
  intro hfl
  have hall := List.flatten_eq_nil_iff.1 hfl
  cases grid with
  | nil => exact h1 rfl
  | cons a t => exact h2 a (List.mem_cons_self a t) (hall a (List.mem_cons_self a t))

/-- **C10**: every vertical coordinate produced by the vertical-mapping stage
of `fetch_dhm_elevation` — every cell of the heights grid, and `sea_level_y`
when present — lies in the closed interval
`[ground_level, MAX_Y - TERRAIN_HEIGHT_BUFFER] = [ground_level, 304]`.
(The hypothesis `ground_level ≤ 304` is forced: for a larger ground level
Rust's `clamp` panics, so no call returns successfully.) -/
theorem dhm_heights_within_bounds (grid : List (List ℚ)) (g : ℤ) (S : ℚ)
    (hg : g ≤ MAX_Y - TERRAIN_HEIGHT_BUFFER) :
    (∀ row ∈ (dhmVerticalMap grid g S).1, ∀ y ∈ row, g ≤ y ∧ y ≤ 304) ∧
    (∀ y, (dhmVerticalMap grid g S).2 = some y → g ≤ y ∧ y ≤ 304) := by
  have h304 : MAX_Y - TERRAIN_HEIGHT_BUFFER = (304 : ℤ) := by decide
  constructor
  · intro row hrow y hy
    simp only [dhmVerticalMap, List.mem_map] at hrow
    obtain ⟨r, _, rfl⟩ := hrow
    simp only [List.mem_map] at hy
    obtain ⟨h, _, rfl⟩ := hy
    have hb := mcYQ_bounds g (dhmMinH grid) (dhmMaxH grid - dhmMinH grid)
      (scaledRangeQ (dhmMaxH grid - dhmMinH grid) S (availableYRange g))
      h hg
    exact ⟨hb.1, h304 ▸ hb.2⟩
  · intro y hy
    simp only [dhmVerticalMap] at hy
    unfold seaLevelYQ at hy
    split at hy
    · have hb := clampZ_bounds (roundAway ((g : ℚ) +
        (0 - dhmMinH grid) / (dhmMaxH grid - dhmMinH grid) *
          scaledRangeQ (dhmMaxH grid - dhmMinH grid) S (availableYRange g)))
        g (MAX_Y - TERRAIN_HEIGHT_BUFFER) hg
      simp only [Option.some.injEq] at hy
      subst hy
      exact ⟨hb.1, h304 ▸ hb.2⟩
    · exact absurd hy (by simp)

/-- Closed witness for `dhm_heights_within_bounds` at a concrete input. -/
theorem dhm_heights_within_bounds_witness :
    (0 : ℤ) ≤ MAX_Y - TERRAIN_HEIGHT_BUFFER ∧
    ((∀ row ∈ (dhmVerticalMap [[(7 : ℚ)]] 0 1).1, ∀ y ∈ row, 0 ≤ y ∧ y ≤ 304) ∧
     (∀ y, (dhmVerticalMap [[(7 : ℚ)]] 0 1).2 = some y → 0 ≤ y ∧ y ≤ 304)) :=
  ⟨by decide, dhm_heights_within_bounds [[(7 : ℚ)]] 0 1 (by decide)⟩

/-- **C2**: in the vertical-mapping stage of `fetch_dhm_elevation`, when the
smoothed elevation range `R` times the requested scale `S` exceeds the
available vertical budget `B = 319 - 15 - ground_level`, the returned grid's
maximum vertical coordinate minus its minimum vertical coordinate equals `B`
exactly; when `R * S ≤ B` the requested scale is used unmodified (the scaled
range is exactly `R * S`). -/
theorem dhm_vertical_compression (grid : List (List ℚ)) (g : ℤ) (S : ℚ)
    (h1 : grid ≠ []) (h2 : ∀ row ∈ grid, row ≠ [])
    (hg : g ≤ MAX_Y - TERRAIN_HEIGHT_BUFFER) :
    (availableYRange g < (dhmMaxH grid - dhmMinH grid) * S →
      listMaxZ (dhmVerticalMap grid g S).1.flatten -
        listMinZ (dhmVerticalMap grid g S).1.flatten =
        MAX_Y - TERRAIN_HEIGHT_BUFFER - g) ∧
    ((dhmMaxH grid - dhmMinH grid) * S ≤ availableYRange g →
      scaledRangeQ (dhmMaxH grid - dhmMinH grid) S (availableYRange g) =
        (dhmMaxH grid - dhmMinH grid) * S) := by
  have hflne : grid.flatten ≠ [] := dhm_flatten_ne grid h1 h2
  have hmM : dhmMinH grid ≤ dhmMaxH grid :=
    listMinQ_le (dhmMaxH grid) (listMaxQ_mem hflne)
  have havail : (0 : ℚ) ≤ availableYRange g := by
    unfold availableYRange
    have : (0 : ℤ) ≤ MAX_Y - TERRAIN_HEIGHT_BUFFER - g := by omega
    exact_mod_cast this
  constructor
  · intro hlt
    have hR : 0 < dhmMaxH grid - dhmMinH grid := by
      rcases lt_or_eq_of_le hmM with hlt' | heq
      · linarith
      · rw [← heq] at hlt
        simp only [sub_self, zero_mul] at hlt
        linarith
    have hsr : scaledRangeQ (dhmMaxH grid - dhmMinH grid) S (availableYRange g) =
        availableYRange g := by
      unfold scaledRangeQ
      rw [if_neg (not_le.mpr hlt), mul_comm, div_mul_cancel₀ _ (ne_of_gt hR)]
    have hmap : (dhmVerticalMap grid g S).1.flatten =
        grid.flatten.map
          (mcYQ g (dhmMinH grid) (dhmMaxH grid - dhmMinH grid) (availableYRange g)) := by
      simp only [dhmVerticalMap, hsr]
      exact (List.map_flatten _ grid).symm
    have hfM : mcYQ g (dhmMinH grid) (dhmMaxH grid - dhmMinH grid)
        (availableYRange g) (dhmMaxH grid) = MAX_Y - TERRAIN_HEIGHT_BUFFER := by
      unfold mcYQ
      rw [if_pos hR, div_self (ne_of_gt hR)]
      dsimp only
      rw [one_mul]
      have hcast : (g : ℚ) + availableYRange g =
          ((MAX_Y - TERRAIN_HEIGHT_BUFFER : ℤ) : ℚ) := by
        unfold availableYRange; push_cast; ring
      rw [hcast, roundAway_intCast]
      unfold clampZ
      rw [min_self, max_eq_right hg]
    have hfm : mcYQ g (dhmMinH grid) (dhmMaxH grid - dhmMinH grid)
        (availableYRange g) (dhmMinH grid) = g := by
      unfold mcYQ
      rw [if_pos hR, sub_self, zero_div]
      dsimp only
      rw [zero_mul, add_zero, roundAway_intCast]
      unfold clampZ
      rw [min_eq_left hg, max_self]
    have hmapne : grid.flatten.map
        (mcYQ g (dhmMinH grid) (dhmMaxH grid - dhmMinH grid) (availableYRange g))
          ≠ [] := by
      simpa using hflne
    have hmax : listMaxZ ((dhmVerticalMap grid g S).1.flatten) =
        MAX_Y - TERRAIN_HEIGHT_BUFFER := by
      rw [hmap]
      apply le_antisymm
      · obtain ⟨h, _, heq⟩ := List.mem_map.1 (listMaxZ_mem hmapne)
        rw [← heq]
        exact (mcYQ_bounds g _ _ _ h hg).2
      · have hMmem : mcYQ g (dhmMinH grid) (dhmMaxH grid - dhmMinH grid)
            (availableYRange g) (dhmMaxH grid) ∈ grid.flatten.map
              (mcYQ g (dhmMinH grid) (dhmMaxH grid - dhmMinH grid)
                (availableYRange g)) :=
          List.mem_map_of_mem _ (listMaxQ_mem hflne)
        have := le_listMaxZ _ hMmem
        rwa [hfM] at this
    have hmin : listMinZ ((dhmVerticalMap grid g S).1.flatten) = g := by
      rw [hmap]
      apply le_antisymm
      · have hmmem : mcYQ g (dhmMinH grid) (dhmMaxH grid - dhmMinH grid)
            (availableYRange g) (dhmMinH grid) ∈ grid.flatten.map
              (mcYQ g (dhmMinH grid) (dhmMaxH grid - dhmMinH grid)
                (availableYRange g)) :=
          List.mem_map_of_mem _ (listMinQ_mem hflne)
        have := listMinZ_le _ hmmem
        rwa [hfm] at this
      · obtain ⟨h, _, heq⟩ := List.mem_map.1 (listMinZ_mem hmapne)
        rw [← heq]
        exact (mcYQ_bounds g _ _ _ h hg).1
    rw [hmax, hmin]
  · intro hle
    unfold scaledRangeQ
    rw [if_pos hle]

/-- Closed witness for `dhm_vertical_compression`: a two-cell grid of range
100 m with scale 10 exceeds the budget `304`, and the output spans exactly
`[0, 304]`. -/
theorem dhm_vertical_compression_witness :
    ([[(0 : ℚ)], [(100 : ℚ)]] ≠ ([] : List (List ℚ)) ∧
     (∀ row ∈ [[(0 : ℚ)], [(100 : ℚ)]], row ≠ []) ∧
     (0 : ℤ) ≤ MAX_Y - TERRAIN_HEIGHT_BUFFER) ∧
    ((availableYRange 0 <
        (dhmMaxH [[(0 : ℚ)], [(100 : ℚ)]] - dhmMinH [[(0 : ℚ)], [(100 : ℚ)]]) * 10 →
      listMaxZ (dhmVerticalMap [[(0 : ℚ)], [(100 : ℚ)]] 0 10).1.flatten -
        listMinZ (dhmVerticalMap [[(0 : ℚ)], [(100 : ℚ)]] 0 10).1.flatten =
        MAX_Y - TERRAIN_HEIGHT_BUFFER - 0) ∧
     ((dhmMaxH [[(0 : ℚ)], [(100 : ℚ)]] - dhmMinH [[(0 : ℚ)], [(100 : ℚ)]]) * 10 ≤
        availableYRange 0 →
      scaledRangeQ
        (dhmMaxH [[(0 : ℚ)], [(100 : ℚ)]] - dhmMinH [[(0 : ℚ)], [(100 : ℚ)]]) 10
        (availableYRange 0) =
        (dhmMaxH [[(0 : ℚ)], [(100 : ℚ)]] - dhmMinH [[(0 : ℚ)], [(100 : ℚ)]]) * 10)) :=
  ⟨⟨by decide, by decide, by decide⟩,
   dhm_vertical_compression [[(0 : ℚ)], [(100 : ℚ)]] 0 10 (by decide) (by decide)
     (by decide)⟩

/-- **C3, counterexample**: for the flat grid `[[0]]` (smoothed minimum
height `0 < 0.5`) the code returns no `sea_level_y`, because it additionally
requires `height_range > 0` — refuting "present if and only if the minimum
height is less than 0.5". -/
theorem dhm_sea_level_iff_counterexample :
    dhmMinH [[(0 : ℚ)]] < 1/2 ∧ (dhmVerticalMap [[(0 : ℚ)]] 0 1).2 = none := by
  have hmin : dhmMinH [[(0 : ℚ)]] = 0 := by simp [dhmMinH, listMinQ]
  have hmax : dhmMaxH [[(0 : ℚ)]] = 0 := by simp [dhmMaxH, listMaxQ]
  constructor
  · rw [hmin]; norm_num
  · show seaLevelYQ 0 (dhmMinH [[(0 : ℚ)]])
      (dhmMaxH [[(0 : ℚ)]] - dhmMinH [[(0 : ℚ)]]) _ = none
    unfold seaLevelYQ
    rw [if_neg]
    intro hcond
    rw [hmax, hmin, sub_zero] at hcond
    exact absurd hcond.1 (lt_irrefl 0)

/-- **C3, amended**: `sea_level_y` is present if and only if the smoothed
height range is positive *and* the smoothed minimum height is below 0.5 m;
when present it is the value of the same linear cell mapping (`mcYQ`)
applied to real-world elevation 0 m. -/
theorem dhm_sea_level_presence (grid : List (List ℚ)) (g : ℤ) (S : ℚ) :
    ((dhmVerticalMap grid g S).2.isSome ↔
      (0 < dhmMaxH grid - dhmMinH grid ∧ dhmMinH grid < 1/2)) ∧
    (∀ y, (dhmVerticalMap grid g S).2 = some y →
      y = mcYQ g (dhmMinH grid) (dhmMaxH grid - dhmMinH grid)
        (scaledRangeQ (dhmMaxH grid - dhmMinH grid) S (availableYRange g)) 0) := by
  constructor
  · simp only [dhmVerticalMap]
    unfold seaLevelYQ
    split
    · simp only [Option.isSome_some, true_iff]
      assumption
    · simp only [Option.isSome_none, Bool.false_eq_true, false_iff]
      assumption
  · intro y hy
    simp only [dhmVerticalMap] at hy
    unfold seaLevelYQ at hy
    split at hy
    · rename_i hcond
      simp only [Option.some.injEq] at hy
      subst hy
      unfold mcYQ
      rw [if_pos hcond.1]
    · exact absurd hy (by simp)

/-- Closed witness for `dhm_sea_level_presence` at a grid spanning
`[0, 10]` m with ground level 0 and scale 1. -/
theorem dhm_sea_level_presence_witness :
    ((dhmVerticalMap [[(0 : ℚ)], [(10 : ℚ)]] 0 1).2.isSome ↔
      (0 < dhmMaxH [[(0 : ℚ)], [(10 : ℚ)]] - dhmMinH [[(0 : ℚ)], [(10 : ℚ)]] ∧
        dhmMinH [[(0 : ℚ)], [(10 : ℚ)]] < 1/2)) ∧
    (∀ y, (dhmVerticalMap [[(0 : ℚ)], [(10 : ℚ)]] 0 1).2 = some y →
      y = mcYQ 0 (dhmMinH [[(0 : ℚ)], [(10 : ℚ)]])
        (dhmMaxH [[(0 : ℚ)], [(10 : ℚ)]] - dhmMinH [[(0 : ℚ)], [(10 : ℚ)]])
        (scaledRangeQ
          (dhmMaxH [[(0 : ℚ)], [(10 : ℚ)]] - dhmMinH [[(0 : ℚ)], [(10 : ℚ)]]) 1
          (availableYRange 0)) 0) :=
  dhm_sea_level_presence [[(0 : ℚ)], [(10 : ℚ)]] 0 1

/-- **C6, counterexample**: resampling a 22×1 raster to a 22×1 grid (same
dimensions) is *not* the identity under the code's binary64 index
arithmetic: target cell 15 reads source pixel 14, because
`(15_f64 / 22.0) * 22.0 = 14.999999999999998` truncates to 14.  The source
pixel 15 holds 15 (not a nodata value), yet the output cell holds 14. -/
theorem resample_same_dims_not_identity :
    ((resampleDhm 22 1 22 1 ((List.range 22).map fun i => (i : ℚ))).getD 0 []).getD
        15 0 = 14 ∧
    ((List.range 22).map fun i => (i : ℚ)).getD (0 * 22 + 15) 0 = 15 ∧
    ¬ ((List.range 22).map fun i => (i : ℚ)).getD (0 * 22 + 15) 0 ≤ dhmNodata := by
  refine ⟨by decide, by decide, by decide⟩

/-- **C6, amended**: resampling to a target grid of the same width and
height is the identity (up to the nodata-to-0 substitution) *provided* the
binary64-evaluated index map `srcIdx · n n` is the identity on both axis
ranges.  That side condition holds for many sizes (e.g. every size ≤ 21)
but fails in general — first at width 22, index 15, as the counterexample
shows — so the unconditional claim is false. -/
theorem resample_same_dims_identity_of_exact (w h : ℕ) (raw : List ℚ)
    (hw : ∀ gx, gx < w → srcIdx gx w w = gx)
    (hh : ∀ gz, gz < h → srcIdx gz h h = gz) :
    ∀ gz, gz < h → ∀ gx, gx < w →
      ((resampleDhm w h w h raw).getD gz []).getD gx 0 =
        if raw.getD (gz * w + gx) 0 ≤ dhmNodata then 0
        else raw.getD (gz * w + gx) 0 := by
  intro gz hgz gx hgx
  unfold resampleDhm
  simp only [List.getD_eq_getElem?_getD, List.getElem?_map,
    List.getElem?_range hgz, List.getElem?_range hgx, Option.map_some',
    Option.getD_some]
  rw [hw gx hgx, hh gz hgz]

/-- Closed witness for `resample_same_dims_identity_of_exact` on a 3×2
raster containing a nodata pixel. -/
theorem resample_same_dims_identity_of_exact_witness :
    (∀ gx, gx < 3 → srcIdx gx 3 3 = gx) ∧
    (∀ gz, gz < 2 → srcIdx gz 2 2 = gz) ∧
    (∀ gz, gz < 2 → ∀ gx, gx < 3 →
      ((resampleDhm 3 2 3 2 [(1 : ℚ), -10000, 3, 4, 5, 6]).getD gz []).getD gx 0 =
        if ([(1 : ℚ), -10000, 3, 4, 5, 6].getD (gz * 3 + gx) 0) ≤ dhmNodata then 0
        else [(1 : ℚ), -10000, 3, 4, 5, 6].getD (gz * 3 + gx) 0) :=
  ⟨by decide, by decide,
   resample_same_dims_identity_of_exact 3 2 [(1 : ℚ), -10000, 3, 4, 5, 6]
     (by decide) (by decide)⟩

theorem fetchBbrLoop_step (conv : ℚ → ℚ → ℚ × ℚ)
    (server : ℕ → Option String → BbrReply) (fuel page : ℕ)
    (cursor : Option String) (acc : List BbrBuilding)
    (status : ℕ) (bodyText : String) (body : GqlResponse)
    (result : GqlBygningResult) (c : String)
    (hr : server (page + 1) cursor = .httpReply status bodyText (.ok body))
    (hst : 200 ≤ status ∧ status < 300)
    (herr : body.errors = none)
    (hdata : body.data.bind id = some result)
    (hnext : result.pageInfo.hasNextPage = true)
    (hcur : result.pageInfo.endCursor = some c) :
    fetchBbrLoop conv server (fuel + 1) page cursor acc =
      if 100 ≤ page + 1 then
        Sum.inl (acc ++ result.nodes.filterMap (parseBygning conv), page + 1, true)
      else
        fetchBbrLoop conv server fuel (page + 1) (some c)
          (acc ++ result.nodes.filterMap (parseBygning conv)) := by
  rw [fetchBbrLoop, hr]
  try dsimp only
  rw [if_neg (not_not_intro hst)]
  try dsimp only
  rw [herr]
  try dsimp only
  rw [hdata]
  try dsimp only
  rw [hnext, hcur]
  simp

theorem fetchBbrLoop_cap (conv : ℚ → ℚ → ℚ × ℚ)
    (server : ℕ → Option String → BbrReply)
    (hs : ∀ p c, alwaysNextReply (server p c)) :
    ∀ k page, ∀ (cursor : Option String) (acc : List BbrBuilding),
      page + (k + 1) = 100 →
      fetchBbrLoop conv server (k + 1) page cursor acc =
        Sum.inl (acc ++ collectPages conv server (k + 1) page cursor, 100, true) := by
  intro k
  induction k with
  | zero =>
    intro page cursor acc hpage
    have hpage99 : page = 99 := by omega
    subst hpage99
    have h := hs 100 cursor
    cases hr : server 100 cursor with
    | sendErr m => rw [hr] at h; exact absurd h (by simp [alwaysNextReply])
    | httpReply status bodyText json =>
      cases json with
      | error e => rw [hr] at h; exact absurd h (by simp [alwaysNextReply])
      | ok body =>
        rw [hr] at h
        obtain ⟨hst, herr, result, hdata, hnext, c, hcur⟩ := h
        rw [show (100 : ℕ) = 99 + 1 from rfl] at hr
        rw [fetchBbrLoop_step conv server 0 99 cursor acc status bodyText body
          result c hr hst herr hdata hnext hcur]
        rw [if_pos (by omega)]
        unfold collectPages
        rw [show replyResult (server (99 + 1) cursor) = some result from by
          rw [hr]; exact hdata]
        dsimp only
        simp [collectPages]
  | succ k ih =>
    intro page cursor acc hpage
    have h := hs (page + 1) cursor
    cases hr : server (page + 1) cursor with
    | sendErr m => rw [hr] at h; exact absurd h (by simp [alwaysNextReply])
    | httpReply status bodyText json =>
      cases json with
      | error e => rw [hr] at h; exact absurd h (by simp [alwaysNextReply])
      | ok body =>
        rw [hr] at h
        obtain ⟨hst, herr, result, hdata, hnext, c, hcur⟩ := h
        rw [fetchBbrLoop_step conv server (k + 1) page cursor acc status bodyText
          body result c hr hst herr hdata hnext hcur]
        rw [if_neg (by omega)]
        rw [ih (page + 1) (some c) (acc ++ result.nodes.filterMap (parseBygning conv))
          (by omega)]
        conv_rhs => rw [collectPages]
        rw [show replyResult (server (page + 1) cursor) = some result from by
          rw [hr]; exact hdata]
        dsimp only
        rw [hcur, List.append_assoc]

/-- **C4**: for every server behaviour in which each response is a
successful page reporting `hasNextPage = true` with a continuation cursor,
the pagination loop of `fetch_bbr_buildings` terminates after exactly 100
page fetches (the safety cap), sets the warning flag, and returns the
records accumulated over those 100 pages as a successful (`Ok`) result. -/
theorem bbr_pagination_cap (conv : ℚ → ℚ → ℚ × ℚ)
    (server : ℕ → Option String → BbrReply)
    (hs : ∀ p c, alwaysNextReply (server p c)) :
    fetchBbrBuildings conv server =
      Sum.inl (collectPages conv server 100 0 none, 100, true) := by
  have h := fetchBbrLoop_cap conv server hs 99 0 none [] (by omega)
  rw [show (99 + 1 : ℕ) = 100 from rfl] at h
  simpa [fetchBbrBuildings] using h

/-- Closed witness for `bbr_pagination_cap`: a concrete always-next server
(empty pages, constant cursor). -/
theorem bbr_pagination_cap_witness :
    fetchBbrBuildings (fun a b => (a, b))
        (fun _ _ => BbrReply.httpReply 200 ""
          (.ok ⟨some (some ⟨[], ⟨true, some "c"⟩⟩), none⟩)) =
      Sum.inl
        (collectPages (fun a b => (a, b))
          (fun _ _ => BbrReply.httpReply 200 ""
            (.ok ⟨some (some ⟨[], ⟨true, some "c"⟩⟩), none⟩)) 100 0 none,
         100, true) ∧
    collectPages (fun a b => (a, b))
        (fun _ _ => BbrReply.httpReply 200 ""
          (.ok ⟨some (some ⟨[], ⟨true, some "c"⟩⟩), none⟩)) 100 0 none = [] :=
  ⟨bbr_pagination_cap _ _
    (fun _ _ => ⟨⟨by omega, by omega⟩, rfl, ⟨[], ⟨true, some "c"⟩⟩, rfl, rfl, "c", rfl⟩),
   by decide⟩

/-- **C8**: per-record parse resilience of `fetch_bbr_buildings`.  A record
whose WKT point is absent or malformed is skipped (and contributes nothing
to the page's records); a record with a good point is kept, with each
numeric attribute string parsed independently and degrading to `none` on
failure; and a fetch whose only page carries arbitrary (possibly malformed)
records still returns successfully. -/
theorem bbr_record_parse_resilience (conv : ℚ → ℚ → ℚ × ℚ) :
    (∀ b : GqlBygning, b.koordinat = none → parseBygning conv b = none) ∧
    (∀ (b : GqlBygning) (k : GqlKoordinat), b.koordinat = some k →
      k.wkt.bind (parsePointCoordinate conv) = none →
      parseBygning conv b = none) ∧
    (∀ (b : GqlBygning) (k : GqlKoordinat) (ll : ℚ × ℚ), b.koordinat = some k →
      k.wkt.bind (parsePointCoordinate conv) = some ll →
      parseBygning conv b = some
        { lat := ll.1, lon := ll.2, antalEtager := b.antalEtager,
          ydervaegsMateriale := b.ydervaegsMateriale.bind parseI32,
          tagdaekning := b.tagdaekning.bind parseI32,
          anvendelse := b.anvendelse.bind parseI32 }) ∧
    (∀ (b : GqlBygning) (rest : List GqlBygning), parseBygning conv b = none →
      (b :: rest).filterMap (parseBygning conv) =
        rest.filterMap (parseBygning conv)) ∧
    (∀ nodes : List GqlBygning,
      fetchBbrBuildings conv
        (fun _ _ => .httpReply 200 ""
          (.ok ⟨some (some ⟨nodes, ⟨false, none⟩⟩), none⟩)) =
        Sum.inl (nodes.filterMap (parseBygning conv), 1, false)) := by
  refine ⟨?_, ?_, ?_, ?_, ?_⟩
  · intro b h
    unfold parseBygning
    rw [h]
  · intro b k h hw
    unfold parseBygning
    rw [h]
    dsimp only
    rw [hw]
  · intro b k ll h hw
    unfold parseBygning
    rw [h]
    dsimp only
    rw [hw]
  · intro b rest h
    rw [List.filterMap_cons_none h]
  · intro nodes
    unfold fetchBbrBuildings fetchBbrLoop
    norm_num

/-- Closed witness for `bbr_record_parse_resilience`: a record without a
point, a record with a malformed point, and a record with a good point but
an unparsable wall-material string, all inside one successful fetch. -/
theorem bbr_record_parse_resilience_witness :
    parseBygning (fun a b => (a, b))
        ⟨none, none, none, none, none⟩ = none ∧
    parseBygning (fun a b => (a, b))
        ⟨none, none, none, none, some ⟨some "POLYGON((1 2))"⟩⟩ = none ∧
    parseBygning (fun a b => (a, b))
        ⟨some "120", some "banana", some "5", some 2,
          some ⟨some "POINT (10 20)"⟩⟩ =
      some { lat := (1 : ℚ) * ((10 : ℤ) : ℚ), lon := (1 : ℚ) * ((20 : ℤ) : ℚ),
             antalEtager := some 2,
             ydervaegsMateriale := (some "banana").bind parseI32,
             tagdaekning := (some "5").bind parseI32,
             anvendelse := (some "120").bind parseI32 } ∧
    parseI32 "banana" = none ∧ parseI32 "5" = some 5 ∧ parseI32 "120" = some 120 ∧
    fetchBbrBuildings (fun a b => (a, b))
        (fun _ _ => .httpReply 200 ""
          (.ok ⟨some (some ⟨[⟨none, none, none, none, none⟩,
            ⟨none, none, none, none, some ⟨some "POLYGON((1 2))"⟩⟩], ⟨false, none⟩⟩),
            none⟩)) =
      Sum.inl ([⟨none, none, none, none, none⟩,
        ⟨none, none, none, none, some ⟨some "POLYGON((1 2))"⟩⟩].filterMap
          (parseBygning (fun a b => (a, b))), 1, false) :=
  ⟨(bbr_record_parse_resilience _).1 _ rfl,
   (bbr_record_parse_resilience _).2.1 _ ⟨some "POLYGON((1 2))"⟩ rfl (by decide),
   (bbr_record_parse_resilience _).2.2.1 _ ⟨some "POINT (10 20)"⟩
     ((1 : ℚ) * ((10 : ℤ) : ℚ), (1 : ℚ) * ((20 : ℤ) : ℚ)) rfl rfl,
   by decide, by decide, by decide,
   (bbr_record_parse_resilience _).2.2.2.2 _⟩

theorem bbrThresholdSq_pos : 0 < bbrThresholdSq := by
  unfold bbrThresholdSq; norm_num

theorem bbrDistSq_nonneg (b : BbrBuilding) (lat lon : ℚ) :
    0 ≤ bbrDistSq b lat lon := by
  unfold bbrDistSq
  have h1 := mul_self_nonneg (b.lat - lat)
  have h2 := mul_self_nonneg (b.lon - lon)
  linarith

theorem findBest_some_spec (lat lon : ℚ) (recs : List BbrBuilding) :
    ∀ (st : Option (ℚ × BbrBuilding)),
      (∀ d b, st = some (d, b) → d = bbrDistSq b lat lon ∧ d < bbrThresholdSq) →
      ∀ d' b', recs.foldl (findBestStep lat lon) st = some (d', b') →
        d' = bbrDistSq b' lat lon ∧ d' < bbrThresholdSq := by
  induction recs with
  | nil =>
    intro st hst d' b' hfold
    exact hst d' b' hfold
  | cons r t ih =>
    intro st hst d' b' hfold
    rw [List.foldl_cons] at hfold
    refine ih (findBestStep lat lon st r) ?_ d' b' hfold
    intro d b hstep
    unfold findBestStep at hstep
    cases st with
    | none =>
      dsimp only at hstep
      split at hstep
      · rename_i hcond
        cases hstep
        exact ⟨rfl, hcond⟩
      · cases hstep
    | some p =>
      obtain ⟨d0, b0⟩ := p
      dsimp only at hstep
      split at hstep
      · rename_i hcond
        cases hstep
        exact ⟨rfl, hcond.2⟩
      · injection hstep with h
        injection h with hd hb
        subst hd
        subst hb
        exact hst _ _ rfl

theorem findBestStep_le (lat lon : ℚ) (st : Option (ℚ × BbrBuilding))
    (b : BbrBuilding) (hd : bbrDistSq b lat lon < bbrThresholdSq) :
    ∃ d' b', findBestStep lat lon st b = some (d', b') ∧
      d' ≤ bbrDistSq b lat lon := by
  unfold findBestStep
  cases st with
  | none =>
    dsimp only
    rw [if_pos hd]
    exact ⟨_, _, rfl, le_refl _⟩
  | some p =>
    obtain ⟨d0, b0⟩ := p
    dsimp only
    by_cases hc : bbrDistSq b lat lon < d0 ∧ bbrDistSq b lat lon < bbrThresholdSq
    · rw [if_pos hc]
      exact ⟨_, _, rfl, le_refl _⟩
    · rw [if_neg hc]
      refine ⟨d0, b0, rfl, ?_⟩
      rcases not_and_or.1 hc with h | h
      · exact le_of_not_lt h
      · exact absurd hd h

theorem findBestFold_mono (lat lon : ℚ) (recs : List BbrBuilding) :
    ∀ (d0 : ℚ) (b0 : BbrBuilding),
      ∃ d' b', recs.foldl (findBestStep lat lon) (some (d0, b0)) = some (d', b') ∧
        d' ≤ d0 := by
  induction recs with
  | nil => exact fun d0 b0 => ⟨d0, b0, rfl, le_refl _⟩
  | cons r t ih =>
    intro d0 b0
    rw [List.foldl_cons]
    unfold findBestStep
    dsimp only
    by_cases hc : bbrDistSq r lat lon < d0 ∧ bbrDistSq r lat lon < bbrThresholdSq
    · rw [if_pos hc]
      obtain ⟨d', b', heq, hle⟩ := ih (bbrDistSq r lat lon) r
      exact ⟨d', b', heq, le_trans hle (le_of_lt hc.1)⟩
    · rw [if_neg hc]
      exact ih d0 b0

theorem findBest_some_of_mem (lat lon : ℚ) (recs : List BbrBuilding)
    (b : BbrBuilding) (hb : b ∈ recs)
    (hd : bbrDistSq b lat lon < bbrThresholdSq) :
    ∃ d' b', findBestBbr recs lat lon = some (d', b') ∧
      d' ≤ bbrDistSq b lat lon := by
  obtain ⟨l1, l2, rfl⟩ := List.append_of_mem hb
  unfold findBestBbr
  rw [List.foldl_append, List.foldl_cons]
  obtain ⟨d1, b1, hstep, hle1⟩ :=
    findBestStep_le lat lon (l1.foldl (findBestStep lat lon) none) b hd
  rw [hstep]
  obtain ⟨d', b', heq, hle2⟩ := findBestFold_mono lat lon l2 d1 b1
  exact ⟨d', b', heq, le_trans hle2 hle1⟩

theorem findBest_none_of_far (lat lon : ℚ) (recs : List BbrBuilding)
    (h : ∀ b ∈ recs, bbrThresholdSq ≤ bbrDistSq b lat lon) :
    findBestBbr recs lat lon = none := by
  unfold findBestBbr
  induction recs with
  | nil => rfl
  | cons r t ih =>
    rw [List.foldl_cons]
    unfold findBestStep
    dsimp only
    rw [if_neg (not_lt.2 (h r (List.mem_cons_self r t)))]
    exact ih fun b hb => h b (List.mem_cons_of_mem r hb)

/-- **C5**: for an eligible entity (a way with a `building`/`building:part`
tag and at least one vertex) and the fetched record list: (1) when some
record's coordinates exactly equal the entity's approximate centroid, the
nearest-record scan matches a record at exactly that centroid; (2) a record
at squared distance at or beyond the threshold `0.00027²` is never the
match — every match lies strictly inside the threshold; (3) with no record
strictly inside the threshold the entity is left entirely unchanged. -/
theorem bbr_matching_threshold (elements : List PElem)
    (latMin latMax lonMin lonMax : ℚ) (records : List BbrBuilding)
    (w : OsmWay) (hW : isBuildingWay w = true) (hn : w.nodes ≠ []) :
    ((∃ b ∈ records,
        b.lat = (approxCentroid (mkCtx elements latMin latMax lonMin lonMax) w).1 ∧
        b.lon = (approxCentroid (mkCtx elements latMin latMax lonMin lonMax) w).2) →
      ∃ d' b', findBestBbr records
          (approxCentroid (mkCtx elements latMin latMax lonMin lonMax) w).1
          (approxCentroid (mkCtx elements latMin latMax lonMin lonMax) w).2 =
          some (d', b') ∧
        b'.lat = (approxCentroid (mkCtx elements latMin latMax lonMin lonMax) w).1 ∧
        b'.lon = (approxCentroid (mkCtx elements latMin latMax lonMin lonMax) w).2) ∧
    (∀ d' b', findBestBbr records
        (approxCentroid (mkCtx elements latMin latMax lonMin lonMax) w).1
        (approxCentroid (mkCtx elements latMin latMax lonMin lonMax) w).2 =
        some (d', b') →
      bbrDistSq b'
          (approxCentroid (mkCtx elements latMin latMax lonMin lonMax) w).1
          (approxCentroid (mkCtx elements latMin latMax lonMin lonMax) w).2 <
        bbrThresholdSq) ∧
    ((∀ b ∈ records, bbrThresholdSq ≤ bbrDistSq b
        (approxCentroid (mkCtx elements latMin latMax lonMin lonMax) w).1
        (approxCentroid (mkCtx elements latMin latMax lonMin lonMax) w).2) →
      enrichElem (mkCtx elements latMin latMax lonMin lonMax) records (.way w) =
        .way w) := by
  set c := mkCtx elements latMin latMax lonMin lonMax with hc
  set clat := (approxCentroid c w).1 with hclat
  set clon := (approxCentroid c w).2 with hclon
  refine ⟨?_, ?_, ?_⟩
  · rintro ⟨b, hb, hblat, hblon⟩
    have hd0 : bbrDistSq b clat clon = 0 := by
      unfold bbrDistSq
      rw [hblat, hblon]
      ring
    obtain ⟨d', b', heq, hle⟩ := findBest_some_of_mem clat clon records b hb
      (by rw [hd0]; exact bbrThresholdSq_pos)
    have hspec := findBest_some_spec clat clon records none (by simp) d' b' heq
    have hd'0 : d' = 0 :=
      le_antisymm (hd0 ▸ hle) (hspec.1 ▸ bbrDistSq_nonneg b' clat clon)
    have hzero : bbrDistSq b' clat clon = 0 := by rw [← hspec.1, hd'0]
    unfold bbrDistSq at hzero
    have h1 : (b'.lat - clat) * (b'.lat - clat) = 0 := by
      have ha := mul_self_nonneg (b'.lat - clat)
      have hb2 := mul_self_nonneg (b'.lon - clon)
      linarith
    have h2 : (b'.lon - clon) * (b'.lon - clon) = 0 := by
      have ha := mul_self_nonneg (b'.lat - clat)
      linarith
    exact ⟨d', b', heq, sub_eq_zero.1 (mul_self_eq_zero.1 h1),
      sub_eq_zero.1 (mul_self_eq_zero.1 h2)⟩
  · intro d' b' heq
    have hspec := findBest_some_spec clat clon records none (by simp) d' b' heq
    exact hspec.1 ▸ hspec.2
  · intro hfar
    have hnone := findBest_none_of_far clat clon records hfar
    unfold enrichElem
    dsimp only
    rw [if_neg (by rw [hW]; exact fun h => h rfl), if_neg hn]
    rw [show findBestBbr records (approxCentroid c w).1 (approxCentroid c w).2 =
      none from hnone]

/-- Closed witness for `bbr_matching_threshold`: a single building way with
one vertex, and one record. -/
theorem bbr_matching_threshold_witness :
    isBuildingWay ⟨[("building", "yes")], [⟨0, 0⟩]⟩ = true ∧
    ([⟨0, 0⟩] : List OsmNode) ≠ [] ∧
    (let w₀ : OsmWay := ⟨[("building", "yes")], [⟨0, 0⟩]⟩
     let elems : List PElem := [.way w₀]
     let recs : List BbrBuilding := [⟨1, 2, none, none, none, none⟩]
     ((∃ b ∈ recs,
        b.lat = (approxCentroid (mkCtx elems 0 1 2 3) w₀).1 ∧
        b.lon = (approxCentroid (mkCtx elems 0 1 2 3) w₀).2) →
      ∃ d' b', findBestBbr recs
          (approxCentroid (mkCtx elems 0 1 2 3) w₀).1
          (approxCentroid (mkCtx elems 0 1 2 3) w₀).2 =
          some (d', b') ∧
        b'.lat = (approxCentroid (mkCtx elems 0 1 2 3) w₀).1 ∧
        b'.lon = (approxCentroid (mkCtx elems 0 1 2 3) w₀).2) ∧
    (∀ d' b', findBestBbr recs
        (approxCentroid (mkCtx elems 0 1 2 3) w₀).1
        (approxCentroid (mkCtx elems 0 1 2 3) w₀).2 =
        some (d', b') →
      bbrDistSq b'
          (approxCentroid (mkCtx elems 0 1 2 3) w₀).1
          (approxCentroid (mkCtx elems 0 1 2 3) w₀).2 <
        bbrThresholdSq) ∧
    ((∀ b ∈ recs, bbrThresholdSq ≤ bbrDistSq b
        (approxCentroid (mkCtx elems 0 1 2 3) w₀).1
        (approxCentroid (mkCtx elems 0 1 2 3) w₀).2) →
      enrichElem (mkCtx elems 0 1 2 3) recs (.way w₀) = .way w₀)) :=
  ⟨by decide, by decide,
   bbr_matching_threshold [.way ⟨[("building", "yes")], [⟨0, 0⟩]⟩] 0 1 2 3
     [⟨1, 2, none, none, none, none⟩] ⟨[("building", "yes")], [⟨0, 0⟩]⟩
     (by decide) (by decide)⟩

theorem enrichElem_way_shape (c : EnrichCtx) (records : List BbrBuilding)
    (w : OsmWay) :
    ∃ w' : OsmWay, enrichElem c records (.way w) = .way w' ∧
      w'.nodes = w.nodes := by
  unfold enrichElem
  dsimp only
  by_cases h1 : ¬ isBuildingWay w = true
  · rw [if_pos h1]; exact ⟨w, rfl, rfl⟩
  · rw [if_neg h1]
    by_cases h2 : w.nodes = []
    · rw [if_pos h2]; exact ⟨w, rfl, rfl⟩
    · rw [if_neg h2]
      cases hfb : findBestBbr records (approxCentroid c w).1 (approxCentroid c w).2 with
      | some db => exact ⟨applyBbr w db.2, rfl, rfl⟩
      | none => exact ⟨w, rfl, rfl⟩

theorem enrichElem_nonbuilding (c : EnrichCtx) (records : List BbrBuilding)
    (w : OsmWay) (h : isBuildingWay w = false) :
    enrichElem c records (.way w) = .way w := by
  unfold enrichElem
  dsimp only
  rw [if_pos]
  rw [h]
  simp

theorem enrichElem_nomatch (c : EnrichCtx) (records : List BbrBuilding)
    (w : OsmWay)
    (h : findBestBbr records (approxCentroid c w).1 (approxCentroid c w).2 = none) :
    enrichElem c records (.way w) = .way w := by
  unfold enrichElem
  dsimp only
  by_cases h1 : ¬ isBuildingWay w = true
  · rw [if_pos h1]
  · rw [if_neg h1]
    by_cases h2 : w.nodes = []
    · rw [if_pos h2]
    · rw [if_neg h2, h]

theorem getD_map_lt {α β : Type} (f : α → β) (l : List α) (i : ℕ)
    (h : i < l.length) (d : α) (d' : β) :
    (l.map f).getD i d' = f (l.getD i d) := by
  rw [List.getD_eq_getElem?_getD, List.getD_eq_getElem?_getD, List.getElem?_map,
    List.getElem?_eq_getElem h]
  simp

/-- **C9**: the reconciliation pass mutates only the tag mapping of matched
building ways.  The output has the same length; non-way elements are
returned unchanged; every way keeps its vertex list (geometry is never
modified); a way without a `building`/`building:part` tag is returned
entirely unchanged; and a way with no record inside the matching threshold
keeps all its tags. -/
theorem enrich_with_bbr_frame (elements : List PElem)
    (records : List BbrBuilding) (latMin latMax lonMin lonMax : ℚ) :
    (enrichWithBbr elements records latMin latMax lonMin lonMax).length =
      elements.length ∧
    (∀ i, i < elements.length →
      (∀ k, elements.getD i (.other 0) = .other k →
        (enrichWithBbr elements records latMin latMax lonMin lonMax).getD i
          (.other 0) = .other k) ∧
      (∀ w : OsmWay, elements.getD i (.other 0) = .way w →
        (∃ w', (enrichWithBbr elements records latMin latMax lonMin lonMax).getD i
            (.other 0) = .way w' ∧ w'.nodes = w.nodes) ∧
        (isBuildingWay w = false →
          (enrichWithBbr elements records latMin latMax lonMin lonMax).getD i
            (.other 0) = .way w) ∧
        (findBestBbr records
            (approxCentroid (mkCtx elements latMin latMax lonMin lonMax) w).1
            (approxCentroid (mkCtx elements latMin latMax lonMin lonMax) w).2 =
            none →
          (enrichWithBbr elements records latMin latMax lonMin lonMax).getD i
            (.other 0) = .way w))) := by
  unfold enrichWithBbr
  by_cases hr : records = []
  · rw [if_pos hr]
    refine ⟨rfl, ?_⟩
    intro i _
    exact ⟨fun k hk => hk, fun w hw => ⟨⟨w, hw, rfl⟩, fun _ => hw, fun _ => hw⟩⟩
  · rw [if_neg hr]
    by_cases hx : buildingXs elements = []
    · rw [if_pos hx]
      refine ⟨rfl, ?_⟩
      intro i _
      exact ⟨fun k hk => hk, fun w hw => ⟨⟨w, hw, rfl⟩, fun _ => hw, fun _ => hw⟩⟩
    · rw [if_neg hx]
      refine ⟨List.length_map _ _, ?_⟩
      intro i hi
      have hmap := getD_map_lt
        (enrichElem (mkCtx elements latMin latMax lonMin lonMax) records)
        elements i hi (.other 0) (.other 0)
      constructor
      · intro k hk
        rw [hmap, hk]
        rfl
      · intro w hw
        rw [hmap, hw]
        exact ⟨enrichElem_way_shape _ records w,
          fun hnb => enrichElem_nonbuilding _ records w hnb,
          fun hnm => enrichElem_nomatch _ records w hnm⟩

/-- Closed witness for `enrich_with_bbr_frame`: one non-way element, one
non-building way and one building way, with one record. -/
theorem enrich_with_bbr_frame_witness :
    (0 : ℕ) < ([.other 7, .way ⟨[("x", "y")], [⟨0, 0⟩]⟩,
        .way ⟨[("building", "yes")], [⟨4, 4⟩]⟩] : List PElem).length ∧
    ((enrichWithBbr [.other 7, .way ⟨[("x", "y")], [⟨0, 0⟩]⟩,
        .way ⟨[("building", "yes")], [⟨4, 4⟩]⟩]
        [⟨1, 2, none, none, none, none⟩] 0 1 2 3).length =
      ([.other 7, .way ⟨[("x", "y")], [⟨0, 0⟩]⟩,
        .way ⟨[("building", "yes")], [⟨4, 4⟩]⟩] : List PElem).length) ∧
    (∀ k, ([.other 7, .way ⟨[("x", "y")], [⟨0, 0⟩]⟩,
        .way ⟨[("building", "yes")], [⟨4, 4⟩]⟩] : List PElem).getD 0
          (.other 0) = .other k →
      (enrichWithBbr [.other 7, .way ⟨[("x", "y")], [⟨0, 0⟩]⟩,
        .way ⟨[("building", "yes")], [⟨4, 4⟩]⟩]
        [⟨1, 2, none, none, none, none⟩] 0 1 2 3).getD 0 (.other 0) =
        .other k) :=
  ⟨by decide,
   (enrich_with_bbr_frame [.other 7, .way ⟨[("x", "y")], [⟨0, 0⟩]⟩,
      .way ⟨[("building", "yes")], [⟨4, 4⟩]⟩]
      [⟨1, 2, none, none, none, none⟩] 0 1 2 3).1,
   ((enrich_with_bbr_frame [.other 7, .way ⟨[("x", "y")], [⟨0, 0⟩]⟩,
      .way ⟨[("building", "yes")], [⟨4, 4⟩]⟩]
      [⟨1, 2, none, none, none, none⟩] 0 1 2 3).2 0 (by decide)).1⟩

theorem attemptStep_retry (o : DhmReply) (h : isRetryReply o = true) :
    attemptStep o = .retry (retryMsgOf o) := by
  unfold isRetryReply at h
  unfold retryMsgOf
  cases hs : attemptStep o with
  | retry m => rfl
  | success a b => rw [hs] at h; cases h
  | fatal m => rw [hs] at h; cases h

theorem attemptStep_fatal (o : DhmReply) (h : isFatalReply o = true) :
    attemptStep o = .fatal (fatalMsgOf o) := by
  unfold isFatalReply at h
  unfold fatalMsgOf
  cases hs : attemptStep o with
  | fatal m => rfl
  | success a b => rw [hs] at h; cases h
  | retry m => rw [hs] at h; cases h

theorem attemptStep_success (o : DhmReply) (h : isSuccessReply o = true) :
    attemptStep o = .success (successCtOf o) (successBytesOf o) := by
  unfold isSuccessReply at h
  unfold successCtOf successBytesOf
  cases hs : attemptStep o with
  | success a b => rfl
  | fatal m => rw [hs] at h; cases h
  | retry m => rw [hs] at h; cases h

/-- **C7**: the raster-fetch retry logic.  Every reply is classified as
exactly one of retryable (transport failure, 5xx, 429, or a failed body
read), fatal (any other non-success status) or success, so the three parts
cover every server behaviour: (1) when all replies are retryable the run
performs exactly 5 rounds of 3 quick attempts (15 attempts, never more) and
fails with an error carrying the last observed error message; (2) a fatal
reply at attempt `i` (after `i` retryable ones) stops the run immediately
with that status error and no further attempts; (3) a success at attempt `i`
stops the run immediately with the response.  In every case the event trace
is `canonicalTrace`: a `2^(attempt-1)`-second sleep before each repeated
attempt within a round, a fixed 60 s sleep between rounds, and no sleep
after the last attempt. -/
theorem dhm_retry_policy (s : ℕ → DhmReply) :
    ((∀ i, i < 15 → isRetryReply (s i) = true) →
      dhmFetchRaster s =
        .err ("DHM WCS failed after 5 rounds of 3 attempts: " ++ retryMsgOf (s 14))
          (canonicalTrace 15)) ∧
    (∀ i, i < 15 → (∀ j, j < i → isRetryReply (s j) = true) →
      isFatalReply (s i) = true →
      dhmFetchRaster s = .err (fatalMsgOf (s i)) (canonicalTrace (i + 1))) ∧
    (∀ i, i < 15 → (∀ j, j < i → isRetryReply (s j) = true) →
      isSuccessReply (s i) = true →
      dhmFetchRaster s = .ok (successCtOf (s i)) (successBytesOf (s i))
        (canonicalTrace (i + 1))) := by
  refine ⟨?_, ?_, ?_⟩
  · intro hall
    have e : ∀ i, i < 15 → attemptStep (s i) = .retry (retryMsgOf (s i)) :=
      fun i hi => attemptStep_retry _ (hall i hi)
    rw [show canonicalTrace 15 = [.att, .sleep 2, .att, .sleep 4, .att, .sleep 60, .att, .sleep 2, .att, .sleep 4, .att, .sleep 60, .att, .sleep 2, .att, .sleep 4, .att, .sleep 60, .att, .sleep 2, .att, .sleep 4, .att, .sleep 60, .att, .sleep 2, .att, .sleep 4, .att] from by decide]
    simp [dhmFetchRaster, dhmRoundLoop, dhmInnerLoop, e 0 (by norm_num), e 1 (by norm_num), e 2 (by norm_num), e 3 (by norm_num), e 4 (by norm_num), e 5 (by norm_num), e 6 (by norm_num), e 7 (by norm_num), e 8 (by norm_num), e 9 (by norm_num), e 10 (by norm_num), e 11 (by norm_num), e 12 (by norm_num), e 13 (by norm_num), e 14 (by norm_num)]
  · intro i hi hj hf
    have e : ∀ j, j < i → attemptStep (s j) = .retry (retryMsgOf (s j)) :=
      fun j hj2 => attemptStep_retry _ (hj j hj2)
    have ef := attemptStep_fatal _ hf
    interval_cases i
    · rw [show canonicalTrace 1 = [.att] from by decide]
      simp [dhmFetchRaster, dhmRoundLoop, dhmInnerLoop, ef]
    · rw [show canonicalTrace 2 = [.att, .sleep 2, .att] from by decide]
      simp [dhmFetchRaster, dhmRoundLoop, dhmInnerLoop, ef, e 0 (by norm_num)]
    · rw [show canonicalTrace 3 = [.att, .sleep 2, .att, .sleep 4, .att] from by decide]
      simp [dhmFetchRaster, dhmRoundLoop, dhmInnerLoop, ef, e 0 (by norm_num), e 1 (by norm_num)]
    · rw [show canonicalTrace 4 = [.att, .sleep 2, .att, .sleep 4, .att, .sleep 60, .att] from by decide]
      simp [dhmFetchRaster, dhmRoundLoop, dhmInnerLoop, ef, e 0 (by norm_num), e 1 (by norm_num), e 2 (by norm_num)]
    · rw [show canonicalTrace 5 = [.att, .sleep 2, .att, .sleep 4, .att, .sleep 60, .att, .sleep 2, .att] from by decide]
      simp [dhmFetchRaster, dhmRoundLoop, dhmInnerLoop, ef, e 0 (by norm_num), e 1 (by norm_num), e 2 (by norm_num), e 3 (by norm_num)]
    · rw [show canonicalTrace 6 = [.att, .sleep 2, .att, .sleep 4, .att, .sleep 60, .att, .sleep 2, .att, .sleep 4, .att] from by decide]
      simp [dhmFetchRaster, dhmRoundLoop, dhmInnerLoop, ef, e 0 (by norm_num), e 1 (by norm_num), e 2 (by norm_num), e 3 (by norm_num), e 4 (by norm_num)]
    · rw [show canonicalTrace 7 = [.att, .sleep 2, .att, .sleep 4, .att, .sleep 60, .att, .sleep 2, .att, .sleep 4, .att, .sleep 60, .att] from by decide]
      simp [dhmFetchRaster, dhmRoundLoop, dhmInnerLoop, ef, e 0 (by norm_num), e 1 (by norm_num), e 2 (by norm_num), e 3 (by norm_num), e 4 (by norm_num), e 5 (by norm_num)]
    · rw [show canonicalTrace 8 = [.att, .sleep 2, .att, .sleep 4, .att, .sleep 60, .att, .sleep 2, .att, .sleep 4, .att, .sleep 60, .att, .sleep 2, .att] from by decide]
      simp [dhmFetchRaster, dhmRoundLoop, dhmInnerLoop, ef, e 0 (by norm_num), e 1 (by norm_num), e 2 (by norm_num), e 3 (by norm_num), e 4 (by norm_num), e 5 (by norm_num), e 6 (by norm_num)]
    · rw [show canonicalTrace 9 = [.att, .sleep 2, .att, .sleep 4, .att, .sleep 60, .att, .sleep 2, .att, .sleep 4, .att, .sleep 60, .att, .sleep 2, .att, .sleep 4, .att] from by decide]
      simp [dhmFetchRaster, dhmRoundLoop, dhmInnerLoop, ef, e 0 (by norm_num), e 1 (by norm_num), e 2 (by norm_num), e 3 (by norm_num), e 4 (by norm_num), e 5 (by norm_num), e 6 (by norm_num), e 7 (by norm_num)]
    · rw [show canonicalTrace 10 = [.att, .sleep 2, .att, .sleep 4, .att, .sleep 60, .att, .sleep 2, .att, .sleep 4, .att, .sleep 60, .att, .sleep 2, .att, .sleep 4, .att, .sleep 60, .att] from by decide]
      simp [dhmFetchRaster, dhmRoundLoop, dhmInnerLoop, ef, e 0 (by norm_num), e 1 (by norm_num), e 2 (by norm_num), e 3 (by norm_num), e 4 (by norm_num), e 5 (by norm_num), e 6 (by norm_num), e 7 (by norm_num), e 8 (by norm_num)]
    · rw [show canonicalTrace 11 = [.att, .sleep 2, .att, .sleep 4, .att, .sleep 60, .att, .sleep 2, .att, .sleep 4, .att, .sleep 60, .att, .sleep 2, .att, .sleep 4, .att, .sleep 60, .att, .sleep 2, .att] from by decide]
      simp [dhmFetchRaster, dhmRoundLoop, dhmInnerLoop, ef, e 0 (by norm_num), e 1 (by norm_num), e 2 (by norm_num), e 3 (by norm_num), e 4 (by norm_num), e 5 (by norm_num), e 6 (by norm_num), e 7 (by norm_num), e 8 (by norm_num), e 9 (by norm_num)]
    · rw [show canonicalTrace 12 = [.att, .sleep 2, .att, .sleep 4, .att, .sleep 60, .att, .sleep 2, .att, .sleep 4, .att, .sleep 60, .att, .sleep 2, .att, .sleep 4, .att, .sleep 60, .att, .sleep 2, .att, .sleep 4, .att] from by decide]
      simp [dhmFetchRaster, dhmRoundLoop, dhmInnerLoop, ef, e 0 (by norm_num), e 1 (by norm_num), e 2 (by norm_num), e 3 (by norm_num), e 4 (by norm_num), e 5 (by norm_num), e 6 (by norm_num), e 7 (by norm_num), e 8 (by norm_num), e 9 (by norm_num), e 10 (by norm_num)]
    · rw [show canonicalTrace 13 = [.att, .sleep 2, .att, .sleep 4, .att, .sleep 60, .att, .sleep 2, .att, .sleep 4, .att, .sleep 60, .att, .sleep 2, .att, .sleep 4, .att, .sleep 60, .att, .sleep 2, .att, .sleep 4, .att, .sleep 60, .att] from by decide]
      simp [dhmFetchRaster, dhmRoundLoop, dhmInnerLoop, ef, e 0 (by norm_num), e 1 (by norm_num), e 2 (by norm_num), e 3 (by norm_num), e 4 (by norm_num), e 5 (by norm_num), e 6 (by norm_num), e 7 (by norm_num), e 8 (by norm_num), e 9 (by norm_num), e 10 (by norm_num), e 11 (by norm_num)]
    · rw [show canonicalTrace 14 = [.att, .sleep 2, .att, .sleep 4, .att, .sleep 60, .att, .sleep 2, .att, .sleep 4, .att, .sleep 60, .att, .sleep 2, .att, .sleep 4, .att, .sleep 60, .att, .sleep 2, .att, .sleep 4, .att, .sleep 60, .att, .sleep 2, .att] from by decide]
      simp [dhmFetchRaster, dhmRoundLoop, dhmInnerLoop, ef, e 0 (by norm_num), e 1 (by norm_num), e 2 (by norm_num), e 3 (by norm_num), e 4 (by norm_num), e 5 (by norm_num), e 6 (by norm_num), e 7 (by norm_num), e 8 (by norm_num), e 9 (by norm_num), e 10 (by norm_num), e 11 (by norm_num), e 12 (by norm_num)]
    · rw [show canonicalTrace 15 = [.att, .sleep 2, .att, .sleep 4, .att, .sleep 60, .att, .sleep 2, .att, .sleep 4, .att, .sleep 60, .att, .sleep 2, .att, .sleep 4, .att, .sleep 60, .att, .sleep 2, .att, .sleep 4, .att, .sleep 60, .att, .sleep 2, .att, .sleep 4, .att] from by decide]
      simp [dhmFetchRaster, dhmRoundLoop, dhmInnerLoop, ef, e 0 (by norm_num), e 1 (by norm_num), e 2 (by norm_num), e 3 (by norm_num), e 4 (by norm_num), e 5 (by norm_num), e 6 (by norm_num), e 7 (by norm_num), e 8 (by norm_num), e 9 (by norm_num), e 10 (by norm_num), e 11 (by norm_num), e 12 (by norm_num), e 13 (by norm_num)]
  · intro i hi hj hs
    have e : ∀ j, j < i → attemptStep (s j) = .retry (retryMsgOf (s j)) :=
      fun j hj2 => attemptStep_retry _ (hj j hj2)
    have es := attemptStep_success _ hs
    interval_cases i
    · rw [show canonicalTrace 1 = [.att] from by decide]
      simp [dhmFetchRaster, dhmRoundLoop, dhmInnerLoop, es]
    · rw [show canonicalTrace 2 = [.att, .sleep 2, .att] from by decide]
      simp [dhmFetchRaster, dhmRoundLoop, dhmInnerLoop, es, e 0 (by norm_num)]
    · rw [show canonicalTrace 3 = [.att, .sleep 2, .att, .sleep 4, .att] from by decide]
      simp [dhmFetchRaster, dhmRoundLoop, dhmInnerLoop, es, e 0 (by norm_num), e 1 (by norm_num)]
    · rw [show canonicalTrace 4 = [.att, .sleep 2, .att, .sleep 4, .att, .sleep 60, .att] from by decide]
      simp [dhmFetchRaster, dhmRoundLoop, dhmInnerLoop, es, e 0 (by norm_num), e 1 (by norm_num), e 2 (by norm_num)]
    · rw [show canonicalTrace 5 = [.att, .sleep 2, .att, .sleep 4, .att, .sleep 60, .att, .sleep 2, .att] from by decide]
      simp [dhmFetchRaster, dhmRoundLoop, dhmInnerLoop, es, e 0 (by norm_num), e 1 (by norm_num), e 2 (by norm_num), e 3 (by norm_num)]
    · rw [show canonicalTrace 6 = [.att, .sleep 2, .att, .sleep 4, .att, .sleep 60, .att, .sleep 2, .att, .sleep 4, .att] from by decide]
      simp [dhmFetchRaster, dhmRoundLoop, dhmInnerLoop, es, e 0 (by norm_num), e 1 (by norm_num), e 2 (by norm_num), e 3 (by norm_num), e 4 (by norm_num)]
    · rw [show canonicalTrace 7 = [.att, .sleep 2, .att, .sleep 4, .att, .sleep 60, .att, .sleep 2, .att, .sleep 4, .att, .sleep 60, .att] from by decide]
      simp [dhmFetchRaster, dhmRoundLoop, dhmInnerLoop, es, e 0 (by norm_num), e 1 (by norm_num), e 2 (by norm_num), e 3 (by norm_num), e 4 (by norm_num), e 5 (by norm_num)]
    · rw [show canonicalTrace 8 = [.att, .sleep 2, .att, .sleep 4, .att, .sleep 60, .att, .sleep 2, .att, .sleep 4, .att, .sleep 60, .att, .sleep 2, .att] from by decide]
      simp [dhmFetchRaster, dhmRoundLoop, dhmInnerLoop, es, e 0 (by norm_num), e 1 (by norm_num), e 2 (by norm_num), e 3 (by norm_num), e 4 (by norm_num), e 5 (by norm_num), e 6 (by norm_num)]
    · rw [show canonicalTrace 9 = [.att, .sleep 2, .att, .sleep 4, .att, .sleep 60, .att, .sleep 2, .att, .sleep 4, .att, .sleep 60, .att, .sleep 2, .att, .sleep 4, .att] from by decide]
      simp [dhmFetchRaster, dhmRoundLoop, dhmInnerLoop, es, e 0 (by norm_num), e 1 (by norm_num), e 2 (by norm_num), e 3 (by norm_num), e 4 (by norm_num), e 5 (by norm_num), e 6 (by norm_num), e 7 (by norm_num)]
    · rw [show canonicalTrace 10 = [.att, .sleep 2, .att, .sleep 4, .att, .sleep 60, .att, .sleep 2, .att, .sleep 4, .att, .sleep 60, .att, .sleep 2, .att, .sleep 4, .att, .sleep 60, .att] from by decide]
      simp [dhmFetchRaster, dhmRoundLoop, dhmInnerLoop, es, e 0 (by norm_num), e 1 (by norm_num), e 2 (by norm_num), e 3 (by norm_num), e 4 (by norm_num), e 5 (by norm_num), e 6 (by norm_num), e 7 (by norm_num), e 8 (by norm_num)]
    · rw [show canonicalTrace 11 = [.att, .sleep 2, .att, .sleep 4, .att, .sleep 60, .att, .sleep 2, .att, .sleep 4, .att, .sleep 60, .att, .sleep 2, .att, .sleep 4, .att, .sleep 60, .att, .sleep 2, .att] from by decide]
      simp [dhmFetchRaster, dhmRoundLoop, dhmInnerLoop, es, e 0 (by norm_num), e 1 (by norm_num), e 2 (by norm_num), e 3 (by norm_num), e 4 (by norm_num), e 5 (by norm_num), e 6 (by norm_num), e 7 (by norm_num), e 8 (by norm_num), e 9 (by norm_num)]
    · rw [show canonicalTrace 12 = [.att, .sleep 2, .att, .sleep 4, .att, .sleep 60, .att, .sleep 2, .att, .sleep 4, .att, .sleep 60, .att, .sleep 2, .att, .sleep 4, .att, .sleep 60, .att, .sleep 2, .att, .sleep 4, .att] from by decide]
      simp [dhmFetchRaster, dhmRoundLoop, dhmInnerLoop, es, e 0 (by norm_num), e 1 (by norm_num), e 2 (by norm_num), e 3 (by norm_num), e 4 (by norm_num), e 5 (by norm_num), e 6 (by norm_num), e 7 (by norm_num), e 8 (by norm_num), e 9 (by norm_num), e 10 (by norm_num)]
    · rw [show canonicalTrace 13 = [.att, .sleep 2, .att, .sleep 4, .att, .sleep 60, .att, .sleep 2, .att, .sleep 4, .att, .sleep 60, .att, .sleep 2, .att, .sleep 4, .att, .sleep 60, .att, .sleep 2, .att, .sleep 4, .att, .sleep 60, .att] from by decide]
      simp [dhmFetchRaster, dhmRoundLoop, dhmInnerLoop, es, e 0 (by norm_num), e 1 (by norm_num), e 2 (by norm_num), e 3 (by norm_num), e 4 (by norm_num), e 5 (by norm_num), e 6 (by norm_num), e 7 (by norm_num), e 8 (by norm_num), e 9 (by norm_num), e 10 (by norm_num), e 11 (by norm_num)]
    · rw [show canonicalTrace 14 = [.att, .sleep 2, .att, .sleep 4, .att, .sleep 60, .att, .sleep 2, .att, .sleep 4, .att, .sleep 60, .att, .sleep 2, .att, .sleep 4, .att, .sleep 60, .att, .sleep 2, .att, .sleep 4, .att, .sleep 60, .att, .sleep 2, .att] from by decide]
      simp [dhmFetchRaster, dhmRoundLoop, dhmInnerLoop, es, e 0 (by norm_num), e 1 (by norm_num), e 2 (by norm_num), e 3 (by norm_num), e 4 (by norm_num), e 5 (by norm_num), e 6 (by norm_num), e 7 (by norm_num), e 8 (by norm_num), e 9 (by norm_num), e 10 (by norm_num), e 11 (by norm_num), e 12 (by norm_num)]
    · rw [show canonicalTrace 15 = [.att, .sleep 2, .att, .sleep 4, .att, .sleep 60, .att, .sleep 2, .att, .sleep 4, .att, .sleep 60, .att, .sleep 2, .att, .sleep 4, .att, .sleep 60, .att, .sleep 2, .att, .sleep 4, .att, .sleep 60, .att, .sleep 2, .att, .sleep 4, .att] from by decide]
      simp [dhmFetchRaster, dhmRoundLoop, dhmInnerLoop, es, e 0 (by norm_num), e 1 (by norm_num), e 2 (by norm_num), e 3 (by norm_num), e 4 (by norm_num), e 5 (by norm_num), e 6 (by norm_num), e 7 (by norm_num), e 8 (by norm_num), e 9 (by norm_num), e 10 (by norm_num), e 11 (by norm_num), e 12 (by norm_num), e 13 (by norm_num)]

/-- Closed witness for `dhm_retry_policy`: a server that always fails at
transport level exhausts all 15 attempts; a server returning HTTP 404
fails immediately after one attempt. -/
theorem dhm_retry_policy_witness :
    (∀ i, i < 15 →
      isRetryReply ((fun _ => DhmReply.sendErr "boom") i) = true) ∧
    dhmFetchRaster (fun _ => DhmReply.sendErr "boom") =
      .err ("DHM WCS failed after 5 rounds of 3 attempts: " ++
        retryMsgOf (DhmReply.sendErr "boom")) (canonicalTrace 15) ∧
    isFatalReply ((fun _ => DhmReply.resp 404 "text/xml" "nope" (.ok "b")) 0) =
      true ∧
    dhmFetchRaster (fun _ => DhmReply.resp 404 "text/xml" "nope" (.ok "b")) =
      .err (fatalMsgOf (DhmReply.resp 404 "text/xml" "nope" (.ok "b")))
        (canonicalTrace 1) :=
  ⟨fun _ _ => rfl,
   (dhm_retry_policy _).1 (fun _ _ => rfl),
   rfl,
   (dhm_retry_policy _).2.1 0 (by norm_num) (fun j hj => absurd hj (by omega))
     rfl⟩
